import Mathlib

/-!
Verification of the QDMA everest driver code (qdma_queues.c, ptdr_dev.c,
ptdr_api.c) against its natural-language specification.  The C code is
shallowly embedded: machine integers become Nat with explicit reduction
modulo 2^64 / 2^32 where the C computation can wrap, syscalls and device
accesses are modelled by oracle functions describing every possible
environment response, and each fallible C function returns an Int error
code exactly as the source does.
-/

namespace QdmaDrivers

/-- Reduce a value to 64 bits, as uint64_t arithmetic does. -/
def u64 (n : Nat) : Nat := n % 2 ^ 64

/-- Reduce a value to 32 bits, as a conversion to uint32_t does. -/
def u32 (n : Nat) : Nat := n % 2 ^ 32

/-- errno EIO (5). -/
def errIo : Int := 5
/-- errno EINVAL (22). -/
def errInval : Int := 22
/-- errno ENOMEM (12). -/
def errNoMem : Int := 12
/-- errno EBUSY (16). -/
def errBusy : Int := 16
/-- errno EAGAIN (11). -/
def errAgain : Int := 11
/-- errno EFAULT (14). -/
def errFault : Int := 14
/-- errno EFBIG (27). -/
def errFbig : Int := 27

/-!
## TransportChannel: qdma_queues.c

queue_read and queue_write (qdma_queues.c:314 and :367) are textually
identical loops up to the syscall invoked (read vs write), so both are
embedded as instances of one chunking core over an abstract syscall oracle.
-/

/-- Outcome of a read/write/lseek syscall: ok n models a return value of
n (n is nonnegative); err e models a return of -1 with errno set to e+1
(errno is always strictly positive after a failed syscall). -/
inductive SysRes where
  | ok (n : Nat)
  | err (e : Nat)
deriving Repr, DecidableEq

/-- A file-descriptor-backed channel: the response of lseek(fd,off,SEEK_SET)
as a function of off, and the response of read/write as a function of the
current file position and the requested byte count. -/
structure Channel where
  lseekRes : Nat → SysRes
  readRes : Nat → Nat → SysRes
  writeRes : Nat → Nat → SysRes

/-- RW_MAX_SIZE from qdma_queues.c:45 (default, non-HBM16GB build). -/
def RW_MAX_SIZE : Nat := 0x019998198

/-- One iteration of the do-while body of queue_read / queue_write
(qdma_queues.c:323-355): cap the chunk at RW_MAX_SIZE, seek when the
current offset is non-zero (aborting on a failed or short seek), issue the
bounded transfer (aborting on a failed or short transfer), then advance
count, offset and the file position.  Error values are the ssize_t results
the C code returns on abort. -/
def chunk_step (lsk : Nat → SysRes) (rw : Nat → Nat → SysRes)
    (size count offset pos : Nat) : Except Int (Nat × Nat) :=
  match (if offset = 0 then Except.ok pos else
          match lsk offset with
          | SysRes.err e => Except.error (-(e + 1 : Int))
          | SysRes.ok n => if n ≠ offset then Except.error (-errIo) else Except.ok n) with
  | Except.error r => Except.error r
  | Except.ok p =>
    match rw p (min (size - count) RW_MAX_SIZE) with
    | SysRes.err e => Except.error (-(e + 1 : Int))
    | SysRes.ok r =>
      if r ≠ min (size - count) RW_MAX_SIZE then Except.error (-errIo)
      else Except.ok (offset + min (size - count) RW_MAX_SIZE,
        p + min (size - count) RW_MAX_SIZE)

/-- The current sub-chunk is fully satisfied: the seek (issued exactly when
the current offset is non-zero) returns the requested offset, and the
bounded transfer returns exactly the requested chunk size. -/
def chunk_ok1 (lsk : Nat → SysRes) (rw : Nat → Nat → SysRes)
    (size count offset pos : Nat) : Bool :=
  (if offset = 0 then true else decide (lsk offset = SysRes.ok offset)) &&
  decide (rw (if offset = 0 then pos else offset)
    (min (size - count) RW_MAX_SIZE)
    = SysRes.ok (min (size - count) RW_MAX_SIZE))

/-- The do-while chunking loop shared by queue_read and queue_write
(qdma_queues.c:323-362 / :376-415), iterated to completion: runs the body
once, then repeats while count < size; on normal exit performs the final
count != size check and returns count. -/
def chunk_go (lsk : Nat → SysRes) (rw : Nat → Nat → SysRes)
    (size count offset pos : Nat) : Int :=
  match chunk_step lsk rw size count offset pos with
  | Except.error r => r
  | Except.ok (o, p) =>
    if hlt : count + min (size - count) RW_MAX_SIZE < size then
      chunk_go lsk rw size (count + min (size - count) RW_MAX_SIZE) o p
    else if count + min (size - count) RW_MAX_SIZE ≠ size then -errIo
    else ((count + min (size - count) RW_MAX_SIZE : Nat) : Int)
termination_by size - count
decreasing_by
  have hmax : 0 < RW_MAX_SIZE := by decide
  omega

/-- Every sub-chunk of the whole transfer is fully satisfied, over the
same chunk decomposition the loop performs. -/
def chunks_ok (lsk : Nat → SysRes) (rw : Nat → Nat → SysRes)
    (size count offset pos : Nat) : Bool :=
  chunk_ok1 lsk rw size count offset pos &&
  (match chunk_step lsk rw size count offset pos with
   | Except.error _ => true
   | Except.ok (o, p) =>
     if hlt : count + min (size - count) RW_MAX_SIZE < size then
       chunks_ok lsk rw size (count + min (size - count) RW_MAX_SIZE) o p
     else true)
termination_by size - count
decreasing_by
  have hmax : 0 < RW_MAX_SIZE := by decide
  omega

/-- queue_read (qdma_queues.c:314): chunked read of size bytes at device
address addr; pos is the file position on entry. -/
def queue_read (ch : Channel) (size addr pos : Nat) : Int :=
  chunk_go ch.lseekRes ch.readRes size 0 addr pos

/-- queue_write (qdma_queues.c:367): chunked write of size bytes at device
address addr; pos is the file position on entry. -/
def queue_write (ch : Channel) (size addr pos : Nat) : Int :=
  chunk_go ch.lseekRes ch.writeRes size 0 addr pos

/-- All sub-chunks of queue_read fully satisfied. -/
def read_chunks_ok (ch : Channel) (size addr pos : Nat) : Bool :=
  chunks_ok ch.lseekRes ch.readRes size 0 addr pos

/-- All sub-chunks of queue_write fully satisfied. -/
def write_chunks_ok (ch : Channel) (size addr pos : Nat) : Bool :=
  chunks_ok ch.lseekRes ch.writeRes size 0 addr pos

/-!
## PTDR device layer: ptdr_dev.c

The device handle ptdr_dev_t carries a magic signature, the register base
address and the queue pointer; a NULL handle is modelled as none and a
NULL q_info as qValid = false.  Device accesses are recorded as events:
regRead/regWrite are the 4-byte register accesses issued through
ptdr_reg_read/ptdr_reg_write, devWrite/devRead the bulk queue_write /
queue_read calls against device memory.
-/

/-- An observable transport access. -/
inductive Ev where
  | regRead (addr : Nat)
  | regWrite (addr : Nat) (val : Nat)
  | devWrite (addr : Nat) (size : Nat)
  | devRead (addr : Nat) (size : Nat)
deriving Repr, DecidableEq

/-- PTDR_MAGIC (ptdr_dev.c:32). -/
def PTDR_MAGIC : Nat := 0xC001C0DE50544452

/-- ptdr_dev_t (ptdr_dev.c:25): signature, register base, queue pointer
(modelled as a validity flag). -/
structure PtdrDev where
  sign : Nat
  base : Nat
  qValid : Bool
deriving Repr, DecidableEq

/-- CHECK_DEV_PTR (ptdr_dev.c:35): the pointer is non-NULL, its q_info is
non-NULL and its signature equals PTDR_MAGIC. -/
def checkDevPtr : Option PtdrDev → Bool
  | none => false
  | some d => d.qValid && decide (d.sign = PTDR_MAGIC)

/-- Register byte offsets, ptdr_regs.h. -/
def PTDR_CTRL_ADDR_CTRL : Nat := 0x00
def PTDR_CTRL_ADDR_GIE : Nat := 0x04
def PTDR_CTRL_ADDR_IER : Nat := 0x08
def PTDR_CTRL_ADDR_ISR : Nat := 0x0c
def PTDR_CTRL_ADDR_NUM_TIMES : Nat := 0x10
def PTDR_CTRL_ADDR_DUR : Nat := 0x18
def PTDR_CTRL_ADDR_ROUTE : Nat := 0x20
def PTDR_CTRL_ADDR_POS : Nat := 0x28
def PTDR_CTRL_ADDR_DEP : Nat := 0x30
def PTDR_CTRL_ADDR_SEED : Nat := 0x38
def PTDR_CTRL_ADDR_BASE : Nat := 0x40
/-- REG_SIZE (ptdr_dev.c:31). -/
def REG_SIZE : Nat := 4

/-!
### Control-register operations in state-passing style

The control-register operations (ptdr_start, ptdr_continue, ptdr_isdone,
ptdr_isidle, ptdr_isready, ptdr_autorestart) read and write the 4-byte
control register through the transport.  The hardware is volatile, so the
value returned by the i-th control-register read of a run is an oracle
hw i : Option Nat (none models a queue_read that does not return REG_SIZE,
which makes ptdr_reg_read report failure); the success of the i-th
register write is an oracle wr i : Bool.  RunSt threads the two oracle
indices and the event trace through a run.
-/

structure RunSt where
  i : Nat
  w : Nat
  evs : List Ev
deriving Repr, DecidableEq

/-- One control-register read through ptdr_reg_read (ptdr_dev.c:117). -/
def st_ctrlRead (dev : PtdrDev) (hw : Nat → Option Nat) (s : RunSt) :
    Option Nat × RunSt :=
  (hw s.i, ⟨s.i + 1, s.w, s.evs ++ [Ev.regRead (u64 (dev.base + PTDR_CTRL_ADDR_CTRL))]⟩)

/-- One control-register write through ptdr_reg_write (ptdr_dev.c:122). -/
def st_ctrlWrite (dev : PtdrDev) (wr : Nat → Bool) (val : Nat) (s : RunSt) :
    Bool × RunSt :=
  (wr s.w, ⟨s.i, s.w + 1, s.evs ++ [Ev.regWrite (u64 (dev.base + PTDR_CTRL_ADDR_CTRL)) val]⟩)

/-- ptdr_start (ptdr_dev.c:346): read the control register; if ap_start
(bit 0) is already set return -EBUSY without writing; otherwise write back
the value keeping only auto_restart (bit 7) and setting ap_start. -/
def ptdr_start (dev : Option PtdrDev) (hw : Nat → Option Nat) (wr : Nat → Bool)
    (s : RunSt) : Int × RunSt :=
  if ¬ checkDevPtr dev then (-errInval, s) else
  match dev with
  | none => (-errInval, s)
  | some d =>
    match st_ctrlRead d hw s with
    | (none, s1) => (-errIo, s1)
    | (some v, s1) =>
      if v &&& 0x01 ≠ 0 then (-errBusy, s1)
      else
        match st_ctrlWrite d wr ((v &&& 0x80) ||| 0x01) s1 with
        | (ok, s2) => if ok then (0, s2) else (-errIo, s2)

/-- ptdr_isdone (ptdr_dev.c:375): read the control register and return
ap_done (bit 1). -/
def ptdr_isdone (dev : Option PtdrDev) (hw : Nat → Option Nat) (s : RunSt) :
    Int × RunSt :=
  if ¬ checkDevPtr dev then (-errInval, s) else
  match dev with
  | none => (-errInval, s)
  | some d =>
    match st_ctrlRead d hw s with
    | (none, s1) => (-errIo, s1)
    | (some v, s1) => (((v >>> 1) &&& 0x01 : Nat), s1)

/-- ptdr_isidle (ptdr_dev.c:392): read the control register and return
ap_idle (bit 2). -/
def ptdr_isidle (dev : Option PtdrDev) (hw : Nat → Option Nat) (s : RunSt) :
    Int × RunSt :=
  if ¬ checkDevPtr dev then (-errInval, s) else
  match dev with
  | none => (-errInval, s)
  | some d =>
    match st_ctrlRead d hw s with
    | (none, s1) => (-errIo, s1)
    | (some v, s1) => (((v >>> 2) &&& 0x01 : Nat), s1)

/-- ptdr_isready (ptdr_dev.c:409): read the control register and return
NOT ap_start (bit 0); the hardware ap_ready bit (bit 3) is deliberately
not consulted. -/
def ptdr_isready (dev : Option PtdrDev) (hw : Nat → Option Nat) (s : RunSt) :
    Int × RunSt :=
  if ¬ checkDevPtr dev then (-errInval, s) else
  match dev with
  | none => (-errInval, s)
  | some d =>
    match st_ctrlRead d hw s with
    | (none, s1) => (-errIo, s1)
    | (some v, s1) => (if v &&& 0x01 = 0 then 1 else 0, s1)

/-- ptdr_continue (ptdr_dev.c:426): read the control register, then write
back the value keeping only auto_restart (bit 7) and setting ap_continue
(bit 4). -/
def ptdr_continue (dev : Option PtdrDev) (hw : Nat → Option Nat) (wr : Nat → Bool)
    (s : RunSt) : Int × RunSt :=
  if ¬ checkDevPtr dev then (-errInval, s) else
  match dev with
  | none => (-errInval, s)
  | some d =>
    match st_ctrlRead d hw s with
    | (none, s1) => (-errIo, s1)
    | (some v, s1) =>
      match st_ctrlWrite d wr ((v &&& 0x80) ||| 0x10) s1 with
      | (ok, s2) => if ok then (0, s2) else (-errIo, s2)

/-- ptdr_autorestart (ptdr_dev.c:449): write 0x80 to enable or 0 to
disable auto_restart, as a full overwrite of the control register. -/
def ptdr_autorestart (dev : Option PtdrDev) (wr : Nat → Bool) (enable : Bool)
    (s : RunSt) : Int × RunSt :=
  if ¬ checkDevPtr dev then (-errInval, s) else
  match dev with
  | none => (-errInval, s)
  | some d =>
    match st_ctrlWrite d wr (if enable then 0x80 else 0) s with
    | (ok, s1) => if ok then (0, s1) else (-errIo, s1)

/-- ptdr_dev_destroy (ptdr_dev.c:127): verify the handle, then clear the
magic signature (the queue teardown and free have no observable effect on
the model). -/
def ptdr_dev_destroy (dev : Option PtdrDev) : Int × Option PtdrDev :=
  if ¬ checkDevPtr dev then (-errInval, dev) else
  match dev with
  | none => (-errInval, none)
  | some d => (0, some { d with sign := 0 })

/-!
### Plain register accessors

The named-offset setters and getters (ptdr_set_numtimes .. ptdr_get_base,
interrupt configuration) are one-shot operations; each takes the
queue-level oracle directly: qw addr size is the Int returned by
queue_write for a size-byte write at addr, rv addr is the value delivered
by a successful 4-byte queue_read at addr (none models a read that does
not return REG_SIZE).  Each returns the C result together with the list of
transport accesses it performed.
-/

/-- Shared body of the 32-bit register setters (ptdr_reg_write on a given
register). -/
def reg_setter (dev : Option PtdrDev) (qw : Nat → Nat → Int) (reg val : Nat) :
    Int × List Ev :=
  if ¬ checkDevPtr dev then (-errInval, []) else
  match dev with
  | none => (-errInval, [])
  | some d =>
    if qw (u64 (d.base + reg)) REG_SIZE ≠ (REG_SIZE : Int)
    then (-errIo, [Ev.regWrite (u64 (d.base + reg)) val])
    else (0, [Ev.regWrite (u64 (d.base + reg)) val])

/-- Shared body of the 32-bit register getters (ptdr_reg_read on a given
register): returns the C result and the value stored through the out
pointer. -/
def reg_getter (dev : Option PtdrDev) (rv : Nat → Option Nat) (reg : Nat) :
    Int × Option Nat × List Ev :=
  if ¬ checkDevPtr dev then (-errInval, none, []) else
  match dev with
  | none => (-errInval, none, [])
  | some d =>
    match rv (u64 (d.base + reg)) with
    | none => (-errIo, none, [Ev.regRead (u64 (d.base + reg))])
    | some v => (0, some v, [Ev.regRead (u64 (d.base + reg))])

/-- ptdr_set_numtimes (ptdr_dev.c:467). -/
def ptdr_set_numtimes (dev : Option PtdrDev) (qw : Nat → Nat → Int) (data : Nat) :
    Int × List Ev := reg_setter dev qw PTDR_CTRL_ADDR_NUM_TIMES data

/-- ptdr_get_numtimes (ptdr_dev.c:481). -/
def ptdr_get_numtimes (dev : Option PtdrDev) (rv : Nat → Option Nat) :
    Int × Option Nat × List Ev := reg_getter dev rv PTDR_CTRL_ADDR_NUM_TIMES

/-- ptdr_set_durations (ptdr_dev.c:495). -/
def ptdr_set_durations (dev : Option PtdrDev) (qw : Nat → Nat → Int) (data : Nat) :
    Int × List Ev := reg_setter dev qw PTDR_CTRL_ADDR_DUR data

/-- ptdr_get_durations (ptdr_dev.c:509). -/
def ptdr_get_durations (dev : Option PtdrDev) (rv : Nat → Option Nat) :
    Int × Option Nat × List Ev := reg_getter dev rv PTDR_CTRL_ADDR_DUR

/-- ptdr_set_route (ptdr_dev.c:523). -/
def ptdr_set_route (dev : Option PtdrDev) (qw : Nat → Nat → Int) (data : Nat) :
    Int × List Ev := reg_setter dev qw PTDR_CTRL_ADDR_ROUTE data

/-- ptdr_get_route (ptdr_dev.c:537). -/
def ptdr_get_route (dev : Option PtdrDev) (rv : Nat → Option Nat) :
    Int × Option Nat × List Ev := reg_getter dev rv PTDR_CTRL_ADDR_ROUTE

/-- ptdr_set_position (ptdr_dev.c:551). -/
def ptdr_set_position (dev : Option PtdrDev) (qw : Nat → Nat → Int) (data : Nat) :
    Int × List Ev := reg_setter dev qw PTDR_CTRL_ADDR_POS data

/-- ptdr_get_position (ptdr_dev.c:565). -/
def ptdr_get_position (dev : Option PtdrDev) (rv : Nat → Option Nat) :
    Int × Option Nat × List Ev := reg_getter dev rv PTDR_CTRL_ADDR_POS

/-- ptdr_set_departure (ptdr_dev.c:579). -/
def ptdr_set_departure (dev : Option PtdrDev) (qw : Nat → Nat → Int) (data : Nat) :
    Int × List Ev := reg_setter dev qw PTDR_CTRL_ADDR_DEP data

/-- ptdr_get_departure (ptdr_dev.c:593). -/
def ptdr_get_departure (dev : Option PtdrDev) (rv : Nat → Option Nat) :
    Int × Option Nat × List Ev := reg_getter dev rv PTDR_CTRL_ADDR_DEP

/-- ptdr_set_seed (ptdr_dev.c:607). -/
def ptdr_set_seed (dev : Option PtdrDev) (qw : Nat → Nat → Int) (data : Nat) :
    Int × List Ev := reg_setter dev qw PTDR_CTRL_ADDR_SEED data

/-- ptdr_get_seed (ptdr_dev.c:621). -/
def ptdr_get_seed (dev : Option PtdrDev) (rv : Nat → Option Nat) :
    Int × Option Nat × List Ev := reg_getter dev rv PTDR_CTRL_ADDR_SEED

/-- ptdr_set_base (ptdr_dev.c:635): writes the 64-bit base as two 32-bit
halves, low word first. -/
def ptdr_set_base (dev : Option PtdrDev) (qw : Nat → Nat → Int) (data : Nat) :
    Int × List Ev :=
  if ¬ checkDevPtr dev then (-errInval, []) else
  match dev with
  | none => (-errInval, [])
  | some d =>
    if qw (u64 (d.base + PTDR_CTRL_ADDR_BASE)) REG_SIZE ≠ (REG_SIZE : Int)
    then (-errIo, [Ev.regWrite (u64 (d.base + PTDR_CTRL_ADDR_BASE)) (u32 data)])
    else if qw (u64 (d.base + PTDR_CTRL_ADDR_BASE + REG_SIZE)) REG_SIZE ≠ (REG_SIZE : Int)
    then (-errIo, [Ev.regWrite (u64 (d.base + PTDR_CTRL_ADDR_BASE)) (u32 data),
      Ev.regWrite (u64 (d.base + PTDR_CTRL_ADDR_BASE + REG_SIZE)) (u32 (data >>> 32))])
    else (0, [Ev.regWrite (u64 (d.base + PTDR_CTRL_ADDR_BASE)) (u32 data),
      Ev.regWrite (u64 (d.base + PTDR_CTRL_ADDR_BASE + REG_SIZE)) (u32 (data >>> 32))])

/-- ptdr_get_base (ptdr_dev.c:654): reads the two 32-bit halves and
reassembles low ||| (high <<< 32). -/
def ptdr_get_base (dev : Option PtdrDev) (rv : Nat → Option Nat) :
    Int × Option Nat × List Ev :=
  if ¬ checkDevPtr dev then (-errInval, none, []) else
  match dev with
  | none => (-errInval, none, [])
  | some d =>
    match rv (u64 (d.base + PTDR_CTRL_ADDR_BASE)) with
    | none => (-errIo, none, [Ev.regRead (u64 (d.base + PTDR_CTRL_ADDR_BASE))])
    | some lo =>
      match rv (u64 (d.base + PTDR_CTRL_ADDR_BASE + REG_SIZE)) with
      | none => (-errIo, none,
          [Ev.regRead (u64 (d.base + PTDR_CTRL_ADDR_BASE)),
           Ev.regRead (u64 (d.base + PTDR_CTRL_ADDR_BASE + REG_SIZE))])
      | some hi => (0, some (lo ||| (hi <<< 32)),
          [Ev.regRead (u64 (d.base + PTDR_CTRL_ADDR_BASE)),
           Ev.regRead (u64 (d.base + PTDR_CTRL_ADDR_BASE + REG_SIZE))])

/-- ptdr_interruptglobal (ptdr_dev.c:677). -/
def ptdr_interruptglobal (dev : Option PtdrDev) (qw : Nat → Nat → Int)
    (enable : Bool) : Int × List Ev :=
  reg_setter dev qw PTDR_CTRL_ADDR_GIE (if enable then 1 else 0)

/-- ptdr_set_interruptconf (ptdr_dev.c:695). -/
def ptdr_set_interruptconf (dev : Option PtdrDev) (qw : Nat → Nat → Int)
    (data : Nat) : Int × List Ev := reg_setter dev qw PTDR_CTRL_ADDR_IER data

/-- ptdr_get_interruptconf (ptdr_dev.c:709). -/
def ptdr_get_interruptconf (dev : Option PtdrDev) (rv : Nat → Option Nat) :
    Int × Option Nat × List Ev := reg_getter dev rv PTDR_CTRL_ADDR_IER

/-- ptdr_get_interruptstatus (ptdr_dev.c:723); the register is
clear-on-read in hardware. -/
def ptdr_get_interruptstatus (dev : Option PtdrDev) (rv : Nat → Option Nat) :
    Int × Option Nat × List Ev := reg_getter dev rv PTDR_CTRL_ADDR_ISR

/-- ptdr_mem_write (ptdr_dev.c:738): raw queue_write after the handle
check; qw is the queue_write result oracle. -/
def ptdr_mem_write (dev : Option PtdrDev) (qw : Nat → Nat → Int)
    (size mem_addr : Nat) : Int × List Ev :=
  if ¬ checkDevPtr dev then (-errInval, []) else
  (qw mem_addr size, [Ev.devWrite mem_addr size])

/-- ptdr_mem_read (ptdr_dev.c:745): raw queue_read after the handle
check; qr is the queue_read result oracle. -/
def ptdr_mem_read (dev : Option PtdrDev) (qr : Nat → Nat → Int)
    (size mem_addr : Nat) : Int × List Ev :=
  if ¬ checkDevPtr dev then (-errInval, []) else
  (qr mem_addr size, [Ev.devRead mem_addr size])

/-!
### Route file parser: ptdr_read_route_from_file (ptdr_dev.c:183)

The route file is a byte source: byteAt p is the byte at position p and
len its length.  fread of 8 bytes succeeds iff 8 bytes remain, assembling
the value little-endian (double values are kept as their 8-byte bit
patterns, which the parser never interprets); fseek(.., SEEK_CUR) always
succeeds on a regular readable file.
-/

/-- Compiled limits, ptdr_dev.c:53-64. -/
def MAX_SIZE_ID : Nat := 32
def MAX_SIZE_SEGMENTS : Nat := 160
def PROFILES_NUM : Nat := 672
def PROFILE_VAL_NUM : Nat := 4

/-- A route-file byte source. -/
structure FileModel where
  byteAt : Nat → Nat
  len : Nat

/-- Little-endian 8-byte word at position pos. -/
def le8 (f : FileModel) (pos : Nat) : Nat :=
  f.byteAt pos + 256 * (f.byteAt (pos + 1) + 256 * (f.byteAt (pos + 2) +
    256 * (f.byteAt (pos + 3) + 256 * (f.byteAt (pos + 4) +
    256 * (f.byteAt (pos + 5) + 256 * (f.byteAt (pos + 6) +
    256 * f.byteAt (pos + 7)))))))

/-- fread(ptr, 1, 8, file): succeeds iff 8 bytes remain, returning the
value and the advanced position. -/
def fread8 (f : FileModel) (pos : Nat) : Option (Nat × Nat) :=
  if pos + 8 ≤ f.len then some (le8 f pos, pos + 8) else none

/-- A segment probability profile: values and cum_probs 8-byte patterns
(ptdr_dev.c:77). -/
structure SegProfile where
  values : List Nat
  cum_probs : List Nat
deriving Repr, DecidableEq

/-- A parsed enriched segment: length and speed bit patterns and the
fixed-count profiles (ptdr_dev.c:83-95; the id is skipped, not stored). -/
structure Seg where
  length : Nat
  speed : Nat
  profiles : List SegProfile
deriving Repr, DecidableEq

/-- A parsed route: frequency bit pattern, the vector-conversion size
field, and the populated segments (ptdr_dev.c:98-103). -/
structure PtdrRoute where
  frequency : Nat
  segCount : Nat
  segments : List Seg
deriving Repr, DecidableEq

/-- Read n consecutive 8-byte words (the k-loops of ptdr_dev.c:228-233). -/
def read_words (f : FileModel) : Nat → Nat → Option (List Nat × Nat)
  | 0, pos => some ([], pos)
  | n + 1, pos =>
    match fread8 f pos with
    | none => none
    | some (v, p) =>
      match read_words f n p with
      | none => none
      | some (vs, q) => some (v :: vs, q)

/-- Read j profiles, each values then cum_probs (the j-loop of
ptdr_dev.c:227-234). -/
def read_profiles (f : FileModel) : Nat → Nat → Option (List SegProfile × Nat)
  | 0, pos => some ([], pos)
  | j + 1, pos =>
    match read_words f PROFILE_VAL_NUM pos with
    | none => none
    | some (vals, p1) =>
      match read_words f PROFILE_VAL_NUM p1 with
      | none => none
      | some (cps, p2) =>
        match read_profiles f j p2 with
        | none => none
        | some (ps, q) => some (⟨vals, cps⟩ :: ps, q)

/-- Read n segments (the i-loop of ptdr_dev.c:211-235): read and skip the
length-prefixed id, read length and speed, then the profiles. -/
def read_segments (f : FileModel) : Nat → Nat → Option (List Seg × Nat)
  | 0, pos => some ([], pos)
  | n + 1, pos =>
    match fread8 f pos with
    | none => none
    | some (id_num, p1) =>
      match fread8 f (p1 + id_num) with
      | none => none
      | some (len, p2) =>
        match fread8 f p2 with
        | none => none
        | some (speed, p3) =>
          match read_profiles f PROFILES_NUM p3 with
          | none => none
          | some (ps, p4) =>
            match read_segments f n p4 with
            | none => none
            | some (segs, q) => some (⟨len, speed, ps⟩ :: segs, q)

/-- ptdr_read_route_from_file (ptdr_dev.c:183): read the frequency and the
segment count, reject a count above MAX_SIZE_SEGMENTS with -EINVAL, then
parse each segment; any short read yields -EIO.  On error no route is
produced. -/
def ptdr_read_route_from_file (f : FileModel) : Except Int PtdrRoute :=
  match fread8 f 0 with
  | none => Except.error (-errIo)
  | some (freq, p1) =>
    match fread8 f p1 with
    | none => Except.error (-errIo)
    | some (count, p2) =>
      if count > MAX_SIZE_SEGMENTS then Except.error (-errInval)
      else
        match read_segments f count p2 with
        | none => Except.error (-errIo)
        | some (segs, _) => Except.ok ⟨freq, count, segs⟩

/-!
### Payload packer: ptdr_dev_conf (ptdr_dev.c:248)

Structure sizes are those of the C structs (no padding arises: every
member is 8-byte-sized or a char[32] array): struct vec_conv is 24 bytes,
struct segment 48, struct segment_time_profile 64, struct
enriched_segment 48 + 672 * 64, ptdr_route_t 8 + 24 + 160 * sizeof
(enriched_segment), ptdr_routepos_t 16.
-/

def sizeof_vec_conv : Nat := 24
def sizeof_segment : Nat := MAX_SIZE_ID + 8 + 8
def sizeof_profile : Nat := 8 * PROFILE_VAL_NUM + 8 * PROFILE_VAL_NUM
def sizeof_enriched_segment : Nat := sizeof_segment + PROFILES_NUM * sizeof_profile
def sizeof_route : Nat := 8 + sizeof_vec_conv + MAX_SIZE_SEGMENTS * sizeof_enriched_segment
def sizeof_routepos : Nat := 16

/-- The total payload size ptdr_data_size computed at ptdr_dev.c:259, in
uint64_t arithmetic: duration header (struct vec_conv) + samples_count
8-byte entries + route structure + start position + departure time +
seed. -/
def ptdr_data_size (samples_count : Nat) : Nat :=
  u64 (sizeof_vec_conv + u64 (samples_count * 8) + sizeof_route +
    sizeof_routepos + 8 + 8)

/-- The available device-memory window end - base, in uint64_t
arithmetic. -/
def mem_window (base endA : Nat) : Nat :=
  (u64 endA + 2 ^ 64 - u64 base) % 2 ^ 64

/-- ptdr_dev_conf (ptdr_dev.c:248): check the handle, compare the total
payload size against the window (failing with -ENOMEM before any device
access), parse the route file, then write the duration vector, route,
start position, departure time and seed to device memory and record each
offset in its register, setting the base register last.  qw is the
queue_write result oracle. -/
def ptdr_dev_conf (dev : Option PtdrDev) (f : FileModel)
    (samples_count routepos_index routepos_progress departure_time seed
      base endA : Nat) (qw : Nat → Nat → Int) : Int × List Ev :=
  if ¬ checkDevPtr dev then (-errInval, []) else
  if ptdr_data_size samples_count > mem_window base endA then (-errNoMem, []) else
  match ptdr_read_route_from_file f with
  | Except.error e => (e, [])
  | Except.ok _ =>
    -- duration conversion header at base + 0
    let t1 := [Ev.devWrite (u64 base) sizeof_vec_conv]
    if qw (u64 base) sizeof_vec_conv ≠ (sizeof_vec_conv : Int) then (-errIo, t1) else
    -- duration samples
    let dsize := u64 (samples_count * 8)
    let t2 := t1 ++ [Ev.devWrite (u64 (base + sizeof_vec_conv)) dsize]
    if qw (u64 (base + sizeof_vec_conv)) dsize ≠ (dsize : Int) then (-errIo, t2) else
    match ptdr_set_durations dev qw 0 with
    | (rd, ed) =>
    if rd ≠ 0 then (rd, t2 ++ ed) else
    let t3 := t2 ++ ed
    let ptr1 := u64 (sizeof_vec_conv + dsize)
    -- route structure
    let t4 := t3 ++ [Ev.devWrite (u64 (base + ptr1)) sizeof_route]
    if qw (u64 (base + ptr1)) sizeof_route ≠ (sizeof_route : Int) then (-errIo, t4) else
    match ptdr_set_route dev qw (u32 ptr1) with
    | (rr, er) =>
    if rr ≠ 0 then (rr, t4 ++ er) else
    let t5 := t4 ++ er
    let ptr2 := u64 (ptr1 + sizeof_route)
    -- start position
    let t6 := t5 ++ [Ev.devWrite (u64 (base + ptr2)) sizeof_routepos]
    if qw (u64 (base + ptr2)) sizeof_routepos ≠ (sizeof_routepos : Int) then (-errIo, t6) else
    match ptdr_set_position dev qw (u32 ptr2) with
    | (rp, ep) =>
    if rp ≠ 0 then (rp, t6 ++ ep) else
    let t7 := t6 ++ ep
    let ptr3 := u64 (ptr2 + sizeof_routepos)
    -- departure time
    let t8 := t7 ++ [Ev.devWrite (u64 (base + ptr3)) 8]
    if qw (u64 (base + ptr3)) 8 ≠ (8 : Int) then (-errIo, t8) else
    match ptdr_set_departure dev qw (u32 ptr3) with
    | (rt, et) =>
    if rt ≠ 0 then (rt, t8 ++ et) else
    let t9 := t8 ++ et
    let ptr4 := u64 (ptr3 + 8)
    -- seed
    let t10 := t9 ++ [Ev.devWrite (u64 (base + ptr4)) 8]
    if qw (u64 (base + ptr4)) 8 ≠ (8 : Int) then (-errIo, t10) else
    match ptdr_set_seed dev qw (u32 ptr4) with
    | (rs, es) =>
    if rs ≠ 0 then (rs, t10 ++ es) else
    let t11 := t10 ++ es
    match ptdr_set_base dev qw (u64 base) with
    | (rb, eb) =>
    if rb ≠ 0 then (rb, t11 ++ eb) else (0, t11 ++ eb)

/-- ptdr_dev_get_durv (ptdr_dev.c:324): read back the duration conversion
header, compare its size field against the requested samples_count
(mismatch is -EINVAL), then read the duration entries.  qr is the
queue_read result oracle and vecSize the size field delivered by the
header read. -/
def ptdr_dev_get_durv (dev : Option PtdrDev) (qr : Nat → Nat → Int)
    (vecSize samples_count base : Nat) : Int × List Ev :=
  if ¬ checkDevPtr dev then (-errInval, []) else
  let t1 := [Ev.devRead (u64 base) sizeof_vec_conv]
  if qr (u64 base) sizeof_vec_conv ≠ (sizeof_vec_conv : Int) then (-errIo, t1) else
  if vecSize ≠ samples_count then (-errInval, t1) else
  let dsize := u64 (samples_count * 8)
  let t2 := t1 ++ [Ev.devRead (u64 (base + sizeof_vec_conv)) dsize]
  if qr (u64 (base + sizeof_vec_conv)) dsize ≠ (dsize : Int) then (-errIo, t2)
  else (0, t2)

/-!
## API layer: ptdr_api.c

ptdr_t wraps the device handle with its own magic signature and the
device-memory window [mem_start, mem_end).  ptdr_run_kernel is the
run-to-completion orchestration; its two indefinite polling loops
(timeout_us == 0) are given explicit fuel, and a result of none means the
loop was still polling when the fuel ran out.  The build is the non-DEBUG
one, where the debug_print macro discards its arguments unevaluated.
-/

/-- PTDR_MAGIC of the API layer (ptdr_api.c:72). -/
def PTDR_API_MAGIC : Nat := 0x0050544452415049

/-- ptdr_t (ptdr_api.c:74). -/
structure PtdrApi where
  sign : Nat
  memStart : Nat
  memEnd : Nat
  dev : Option PtdrDev
deriving Repr, DecidableEq

/-- CHECK_DEV_PTR of the API layer (ptdr_api.c:62). -/
def checkApiPtr : Option PtdrApi → Bool
  | none => false
  | some p => p.dev.isSome && decide (p.sign = PTDR_API_MAGIC)

/-- The wait-for-ready loop with timeout_us == 0 (ptdr_api.c:271-274 and,
for the wait-done phase, :301-304): poll ptdr_isready until it returns
nonzero.  Fuel bounds the number of polls the model performs; none means
the loop had not exited yet. -/
def wait_ready0 (dev : Option PtdrDev) (hw : Nat → Option Nat) :
    Nat → RunSt → Option RunSt
  | 0, _ => none
  | fuel + 1, s =>
    match ptdr_isready dev hw s with
    | (r, s1) => if r = 0 then wait_ready0 dev hw fuel s1 else some s1

/-- The wait-for-ready loop with timeout_us > 0 (ptdr_api.c:276-288):
poll ptdr_isready while it returns 0 and --count is nonzero; the Bool
result is the count == 0 timeout condition.  Only called with count ≥ 1
(the count = 0 equation is never exercised: timeout_us == 0 selects the
indefinite loop instead). -/
def wait_ready_t (dev : Option PtdrDev) (hw : Nat → Option Nat) :
    Nat → RunSt → Bool × RunSt
  | 0, s => (true, s)
  | 1, s =>
    match ptdr_isready dev hw s with
    | (r, s1) => if r ≠ 0 then (false, s1) else (true, s1)
  | c + 2, s =>
    match ptdr_isready dev hw s with
    | (r, s1) => if r ≠ 0 then (false, s1) else wait_ready_t dev hw (c + 1) s1

/-- One evaluation of ptdr_isdone(dev) || ptdr_isidle(dev)
(ptdr_api.c:308), with C short-circuit: ptdr_isidle is only called when
ptdr_isdone returned 0; any nonzero value counts as true. -/
def doneOrIdle (dev : Option PtdrDev) (hw : Nat → Option Nat) (s : RunSt) :
    Bool × RunSt :=
  match ptdr_isdone dev hw s with
  | (d, s1) =>
    if d ≠ 0 then (true, s1)
    else
      match ptdr_isidle dev hw s1 with
      | (l, s2) => if l ≠ 0 then (true, s2) else (false, s2)

/-- The wait-done loop with timeout_us > 0 (ptdr_api.c:306-319): poll
NOT (isdone || isidle) while --count is nonzero; Bool result is the
timeout condition.  Only called with count ≥ 1. -/
def wait_done_t (dev : Option PtdrDev) (hw : Nat → Option Nat) :
    Nat → RunSt → Bool × RunSt
  | 0, s => (true, s)
  | 1, s =>
    match doneOrIdle dev hw s with
    | (b, s1) => if b then (false, s1) else (true, s1)
  | c + 2, s =>
    match doneOrIdle dev hw s with
    | (b, s1) => if b then (false, s1) else wait_done_t dev hw (c + 1) s1

/-- The wait-done phase of ptdr_run_kernel (ptdr_api.c:300-319): with
timeout_us == 0 the code polls ptdr_isready (not isdone || isidle);
with timeout_us > 0 it polls isdone || isidle up to the timeout and
reports -EAGAIN on timeout. -/
def run_phase3 (dev : Option PtdrDev) (hw : Nat → Option Nat)
    (fuel timeout : Nat) (s : RunSt) : Option (Int × RunSt) :=
  if timeout = 0 then
    match wait_ready0 dev hw fuel s with
    | none => none
    | some s1 => some (0, s1)
  else
    match wait_done_t dev hw timeout s with
    | (tb, s1) => some (if tb then -errAgain else 0, s1)

/-- The wait-ready phase of ptdr_run_kernel (ptdr_api.c:269-288), from
the initial (empty) run state: the indefinite poll when timeout_us == 0,
the counted poll (with Bool timeout outcome) otherwise. -/
def run_phase1 (dev : Option PtdrDev) (hw : Nat → Option Nat)
    (fuel timeout : Nat) : Option (Bool × RunSt) :=
  if timeout = 0 then
    match wait_ready0 dev hw fuel ⟨0, 0, []⟩ with
    | none => none
    | some s1 => some (false, s1)
  else some (wait_ready_t dev hw timeout ⟨0, 0, []⟩)

/-- ptdr_run_kernel (ptdr_api.c:258): check the handle, wait for the
kernel to be ready (timeout only in the timeout_us > 0 branch), start the
kernel propagating any negative result through ERR_CHECK, issue
ptdr_continue when ptdr_isdone returns nonzero right after the start,
then run the wait-done phase. -/
def ptdr_run_kernel (fuel : Nat) (api : Option PtdrApi) (timeout : Nat)
    (hw : Nat → Option Nat) (wr : Nat → Bool) : Option (Int × RunSt) :=
  if ¬ checkApiPtr api then some (-errInval, ⟨0, 0, []⟩) else
  match api with
  | none => some (-errInval, ⟨0, 0, []⟩)
  | some a =>
    match run_phase1 a.dev hw fuel timeout with
    | none => none
    | some (true, s1) => some (-errAgain, s1)
    | some (false, s1) =>
      match ptdr_start a.dev hw wr s1 with
      | (r, s2) =>
        if r < 0 then some (r, s2) else
        match ptdr_isdone a.dev hw s2 with
        | (d, s3) =>
          if d ≠ 0 then
            match ptdr_continue a.dev hw wr s3 with
            | (c, s4) =>
              if c < 0 then some (c, s4)
              else run_phase3 a.dev hw fuel timeout s4
          else run_phase3 a.dev hw fuel timeout s3

/-- An ap_continue acknowledgement write: a control-register write whose
value has bit 4 set.  ptdr_continue is the only operation that issues
one. -/
def isContWrite : Ev → Bool
  | Ev.regWrite _ v => decide (v &&& 0x10 ≠ 0)
  | _ => false

/-- Number of ap_continue acknowledgement writes in a trace. -/
def contCount (evs : List Ev) : Nat := (evs.filter isContWrite).length

/-- mem_write (ptdr_api.c:337): bound-check the window, then forward to
ptdr_mem_write.  All address arithmetic is uint64_t. -/
def mem_write (api : Option PtdrApi) (qw : Nat → Nat → Int)
    (size offset : Nat) : Int × List Ev :=
  if ¬ checkApiPtr api then (-errInval, []) else
  match api with
  | none => (-errInval, [])
  | some a =>
    let mem_addr := u64 (a.memStart + offset)
    if mem_addr < a.memStart ∨ mem_addr ≥ a.memEnd then (-errFault, [])
    else if u64 (mem_addr + size) > a.memEnd then (-errFbig, [])
    else ptdr_mem_write a.dev qw size mem_addr

/-- mem_read (ptdr_api.c:356): bound-check the window, then forward to
ptdr_mem_read. -/
def mem_read (api : Option PtdrApi) (qr : Nat → Nat → Int)
    (size offset : Nat) : Int × List Ev :=
  if ¬ checkApiPtr api then (-errInval, []) else
  match api with
  | none => (-errInval, [])
  | some a =>
    let mem_addr := u64 (a.memStart + offset)
    if mem_addr < a.memStart ∨ mem_addr ≥ a.memEnd then (-errFault, [])
    else if u64 (mem_addr + size) > a.memEnd then (-errFbig, [])
    else ptdr_mem_read a.dev qr size mem_addr

/-!
### Concrete instances used by closed witnesses and counterexamples
-/

/-- An event is allowed by the control-write invariant: any read, and any
write whose value has at most bits 0 (ap_start), 4 (ap_continue) and
7 (auto_restart) set. -/
def ctrlWriteOkBits : Ev → Bool
  | Ev.regWrite _ v => decide (v &&& 0xffffff6e = 0)
  | _ => true

/-- A concrete valid device handle. -/
def devC : PtdrDev := ⟨PTDR_MAGIC, 0x400000000, true⟩

/-- A concrete valid API handle wrapping devC, with the default 8 GB
window of ptdr_api.c:33-38. -/
def apiC : PtdrApi := ⟨PTDR_API_MAGIC, 0x1000, 0x200000000, some devC⟩

/-- Bytes one serialized segment occupies in the route file when its id
field has length 0: id length word + length + speed + 672 profiles of
2 * 4 doubles. -/
def seg_bytes : Nat :=
  8 + 8 + 8 + PROFILES_NUM * (8 * PROFILE_VAL_NUM + 8 * PROFILE_VAL_NUM)

/-- The all-zero profile parsed from an all-zero byte region. -/
def profile0 : SegProfile :=
  ⟨List.replicate PROFILE_VAL_NUM 0, List.replicate PROFILE_VAL_NUM 0⟩

/-- The all-zero segment parsed from an all-zero byte region. -/
def seg0 : Seg := ⟨0, 0, List.replicate PROFILES_NUM profile0⟩

/-- A well-formed route file with segment count exactly MAX_SIZE_SEGMENTS:
frequency 0, count word 160, and every later byte zero (so every id length
is 0 and all scalars are 0). -/
def file160 : FileModel :=
  ⟨fun p => if p = 8 then 160 else 0, 16 + MAX_SIZE_SEGMENTS * seg_bytes⟩

/-- A route file whose segment count word is MAX_SIZE_SEGMENTS + 1. -/
def file161 : FileModel := ⟨fun p => if p = 8 then 161 else 0, 16⟩

/-- A channel on which every seek lands where asked and every transfer
returns the full requested count. -/
def chPerfect : Channel :=
  ⟨fun off => SysRes.ok off, fun _ n => SysRes.ok n, fun _ n => SysRes.ok n⟩

/-- A channel whose write syscall always returns one byte less than
requested (a short transfer on the first sub-chunk). -/
def chShortWrite : Channel :=
  ⟨fun off => SysRes.ok off, fun _ n => SysRes.ok n, fun _ n => SysRes.ok (n - 1)⟩

theorem chunk_step_classify (lsk : Nat → SysRes) (rw : Nat → Nat → SysRes)
    (size count offset pos : Nat) :
    (chunk_ok1 lsk rw size count offset pos = true ∧
      chunk_step lsk rw size count offset pos =
        Except.ok (offset + min (size - count) RW_MAX_SIZE,
          (if offset = 0 then pos else offset) + min (size - count) RW_MAX_SIZE)) ∨
    (chunk_ok1 lsk rw size count offset pos = false ∧
      ∃ r, chunk_step lsk rw size count offset pos = Except.error r ∧ r < 0) := by
  unfold chunk_step chunk_ok1
  by_cases hoff : offset = 0
  · simp only [hoff, if_true, ite_true]
    cases hrw : rw pos (min (size - count) RW_MAX_SIZE) with
    | err e =>
      right
      refine ⟨by simp [hrw], -(e + 1 : Int), by simp, by omega⟩
    | ok r =>
      by_cases hr : r = min (size - count) RW_MAX_SIZE
      · subst hr
        left
        exact ⟨by simp [hrw], by simp⟩
      · right
        refine ⟨by simp [hrw, hr], -errIo, by simp [hr], by decide⟩
  · simp only [hoff, if_false, ite_false]
    cases hs : lsk offset with
    | err e =>
      right
      refine ⟨by simp [hs], -(e + 1 : Int), by simp, by omega⟩
    | ok n =>
      by_cases hn : n = offset
      · subst hn
        simp only [ne_eq, not_true_eq_false, if_false, ite_false]
        cases hrw : rw n (min (size - count) RW_MAX_SIZE) with
        | err e =>
          right
          refine ⟨by simp [hs, hrw], -(e + 1 : Int), by simp [hrw], by omega⟩
        | ok r =>
          by_cases hr : r = min (size - count) RW_MAX_SIZE
          · subst hr
            left
            exact ⟨by simp [hs, hrw], by simp [hrw]⟩
          · right
            refine ⟨by simp [hs, hrw, hr], -errIo, by simp [hrw, hr], by decide⟩
      · right
        refine ⟨?_, -errIo, by simp [hs, hn], by decide⟩
        have : ¬ (SysRes.ok n = SysRes.ok offset) := by
          simp [SysRes.ok.injEq]
          omega
        simp [hs, this]

theorem chunk_go_spec (lsk : Nat → SysRes) (rw : Nat → Nat → SysRes) :
    ∀ k size count offset pos, size - count = k → count ≤ size →
    (chunks_ok lsk rw size count offset pos = true →
      chunk_go lsk rw size count offset pos = (size : Int)) ∧
    (chunks_ok lsk rw size count offset pos = false →
      chunk_go lsk rw size count offset pos < 0) := by
  intro k
  induction k using Nat.strong_induction_on with
  | _ k ih =>
    intro size count offset pos hk hle
    have hmax : 0 < RW_MAX_SIZE := by decide
    rw [chunk_go, chunks_ok]
    rcases chunk_step_classify lsk rw size count offset pos with
      ⟨hok1, hstep⟩ | ⟨hok1, r, hstep, hrneg⟩
    · rw [hok1, hstep]
      simp only [Bool.true_and]
      by_cases hlt : count + min (size - count) RW_MAX_SIZE < size
      · rw [dif_pos hlt, dif_pos hlt]
        exact ih (size - (count + min (size - count) RW_MAX_SIZE)) (by omega)
          size _ _ _ rfl (by omega)
      · rw [dif_neg hlt, dif_neg hlt]
        have heq : count + min (size - count) RW_MAX_SIZE = size := by omega
        rw [if_neg (by omega : ¬ count + min (size - count) RW_MAX_SIZE ≠ size)]
        exact ⟨fun _ => by exact_mod_cast heq,
          fun hfalse => by simp at hfalse⟩
    · rw [hok1, hstep]
      exact ⟨fun htrue => by simp at htrue, fun _ => hrneg⟩

/-- C1: each of queue_read and queue_write returns exactly the requested
size S (including S = 0) iff every sub-chunk (capped at RW_MAX_SIZE, with
an explicit seek when the current offset is non-zero) transfers its full
requested count; otherwise the call returns a strictly negative error code
and never a partial success count. -/
theorem queue_rw_exact_iff (ch : Channel) (size addr pos : Nat) :
    ((queue_read ch size addr pos = (size : Int)) ↔
      read_chunks_ok ch size addr pos = true) ∧
    (read_chunks_ok ch size addr pos = false →
      queue_read ch size addr pos < 0) ∧
    ((queue_write ch size addr pos = (size : Int)) ↔
      write_chunks_ok ch size addr pos = true) ∧
    (write_chunks_ok ch size addr pos = false →
      queue_write ch size addr pos < 0) := by
  have hr := chunk_go_spec ch.lseekRes ch.readRes (size - 0) size 0 addr pos rfl
    (Nat.zero_le _)
  have hw := chunk_go_spec ch.lseekRes ch.writeRes (size - 0) size 0 addr pos rfl
    (Nat.zero_le _)
  refine ⟨⟨fun heq => ?_, hr.1⟩, hr.2, ⟨fun heq => ?_, hw.1⟩, hw.2⟩
  · by_contra hne
    have := hr.2 (by simpa using hne)
    rw [queue_read] at heq
    omega
  · by_contra hne
    have := hw.2 (by simpa using hne)
    rw [queue_write] at heq
    omega

/-- C1 witness: on a channel satisfying every sub-chunk, a 10-byte read
returns 10; on a channel shorting every write, a 10-byte write fails. -/
theorem queue_rw_exact_iff_witness :
    queue_read chPerfect 10 0 0 = 10 ∧ queue_write chShortWrite 10 4 0 < 0 :=
  ⟨((queue_rw_exact_iff chPerfect 10 0 0).1).mpr
    (by rw [read_chunks_ok, chunks_ok]; decide),
   (queue_rw_exact_iff chShortWrite 10 4 0).2.2.2
    (by rw [write_chunks_ok, chunks_ok]; decide)⟩

/-- C3: on a valid handle with a successful control-register read of
value v, ptdr_isready returns true (1) exactly when bit 0 (ap_start) of v
is 0, and its result is unchanged when bit 3 (ap_ready) of v is
flipped. -/
theorem ptdr_isready_not_apstart (dev : Option PtdrDev) (s : RunSt) (v : Nat)
    (hdev : checkDevPtr dev = true) :
    (((ptdr_isready dev (fun _ => some v) s).1 = 1) ↔ v % 2 = 0) ∧
    (ptdr_isready dev (fun _ => some v) s).1 =
      (ptdr_isready dev (fun _ => some (v ^^^ 8)) s).1 := by
  match dev with
  | none => simp [checkDevPtr] at hdev
  | some d =>
    have hbit : ∀ w : Nat, w &&& 0x01 = w % 2 := fun w => Nat.and_one_is_mod w
    have hxor : (v ^^^ 8) &&& 0x01 = v &&& 0x01 := by
      rw [Nat.and_xor_distrib_right]
      simp [hbit]
    simp only [ptdr_isready, hdev, Bool.not_true, st_ctrlRead]
    constructor
    · rw [hbit]
      by_cases hv : v % 2 = 0 <;> simp [hv]
    · simp [hxor]

/-- C3 witness: at v = 8 (ap_ready set, ap_start clear) the readiness
predicate returns 1. -/
theorem ptdr_isready_not_apstart_witness :
    ((ptdr_isready (some devC) (fun _ => some 8) ⟨0, 0, []⟩).1 = 1) ↔
      (8 : Nat) % 2 = 0 :=
  (ptdr_isready_not_apstart (some devC) ⟨0, 0, []⟩ 8 (by decide)).1

/-- C4 counterexample: with prior control value 0, ptdr_continue writes
0x10 to the control register, and 0x10 has bit 4 set, a bit outside
{0, 7}. -/
theorem ptdr_continue_writes_bit4 :
    ptdr_continue (some devC) (fun _ => some 0) (fun _ => true) ⟨0, 0, []⟩ =
      (0, ⟨1, 1, [Ev.regRead 0x400000000, Ev.regWrite 0x400000000 0x10]⟩) ∧
    (0x10 : Nat) &&& 0xffffff7e ≠ 0 := by
  constructor
  · rfl
  · decide

theorem and80_cases (x : Nat) : x &&& 0x80 = 0 ∨ x &&& 0x80 = 0x80 := by
  have h := Nat.and_two_pow x 7
  rcases hb : x.testBit 7 with _ | _ <;> rw [hb] at h <;>
    simp at h <;> simp [show (0x80 : Nat) = 2 ^ 7 from rfl, h]

theorem mask_start_val (x : Nat) :
    ((x &&& 0x80) ||| 0x01) &&& 0xffffff6e = 0 := by
  rcases and80_cases x with h | h <;> rw [h] <;> decide

theorem mask_cont_val (x : Nat) :
    ((x &&& 0x80) ||| 0x10) &&& 0xffffff6e = 0 := by
  rcases and80_cases x with h | h <;> rw [h] <;> decide

/-- C4 (amended): every value the control-write operations ptdr_start,
ptdr_continue, ptdr_autorestart write to the control register has only
bits 0 (ap_start), 4 (ap_continue) and 7 (auto_restart) possibly set,
for every prior register state: every event they add to the trace is a
read or a write whose value is clear on all other 32-bit positions. -/
theorem ctrl_ops_write_bits (dev : Option PtdrDev) (hw : Nat → Option Nat)
    (wr : Nat → Bool) (enable : Bool) (s : RunSt) :
    (∀ ev ∈ (ptdr_start dev hw wr s).2.evs, ev ∈ s.evs ∨ ctrlWriteOkBits ev = true) ∧
    (∀ ev ∈ (ptdr_continue dev hw wr s).2.evs, ev ∈ s.evs ∨ ctrlWriteOkBits ev = true) ∧
    (∀ ev ∈ (ptdr_autorestart dev wr enable s).2.evs, ev ∈ s.evs ∨ ctrlWriteOkBits ev = true) := by
  by_cases hchk : checkDevPtr dev = true
  · match dev with
    | none => simp [checkDevPtr] at hchk
    | some d =>
      refine ⟨?_, ?_, ?_⟩
      · intro ev hev
        rcases hd : hw s.i with _ | v
        · simp [ptdr_start, st_ctrlRead, hchk, hd] at hev
          rcases hev with h | h
          · exact Or.inl h
          · exact Or.inr (by subst h; rfl)
        · by_cases hbusy : v % 2 = 1
          · simp [ptdr_start, st_ctrlRead, hchk, hd, hbusy] at hev
            rcases hev with h | h
            · exact Or.inl h
            · exact Or.inr (by subst h; rfl)
          · rcases hok : wr s.w with _ | _
            · simp [ptdr_start, st_ctrlRead, st_ctrlWrite, hchk, hd, hbusy, hok] at hev
              rcases hev with h | h | h
              · exact Or.inl h
              · exact Or.inr (by subst h; rfl)
              · exact Or.inr (by subst h; simp [ctrlWriteOkBits, mask_start_val])
            · simp [ptdr_start, st_ctrlRead, st_ctrlWrite, hchk, hd, hbusy, hok] at hev
              rcases hev with h | h | h
              · exact Or.inl h
              · exact Or.inr (by subst h; rfl)
              · exact Or.inr (by subst h; simp [ctrlWriteOkBits, mask_start_val])
      · intro ev hev
        rcases hd : hw s.i with _ | v
        · simp [ptdr_continue, st_ctrlRead, hchk, hd] at hev
          rcases hev with h | h
          · exact Or.inl h
          · exact Or.inr (by subst h; rfl)
        · rcases hok : wr s.w with _ | _
          · simp [ptdr_continue, st_ctrlRead, st_ctrlWrite, hchk, hd, hok] at hev
            rcases hev with h | h | h
            · exact Or.inl h
            · exact Or.inr (by subst h; rfl)
            · exact Or.inr (by subst h; simp [ctrlWriteOkBits, mask_cont_val])
          · simp [ptdr_continue, st_ctrlRead, st_ctrlWrite, hchk, hd, hok] at hev
            rcases hev with h | h | h
            · exact Or.inl h
            · exact Or.inr (by subst h; rfl)
            · exact Or.inr (by subst h; simp [ctrlWriteOkBits, mask_cont_val])
      · intro ev hev
        rcases enable with _ | _
        · rcases hok : wr s.w with _ | _
          · simp [ptdr_autorestart, st_ctrlWrite, hchk, hok] at hev
            rcases hev with h | h
            · exact Or.inl h
            · exact Or.inr (by subst h; simp only [ctrlWriteOkBits]; decide)
          · simp [ptdr_autorestart, st_ctrlWrite, hchk, hok] at hev
            rcases hev with h | h
            · exact Or.inl h
            · exact Or.inr (by subst h; simp only [ctrlWriteOkBits]; decide)
        · rcases hok : wr s.w with _ | _
          · simp [ptdr_autorestart, st_ctrlWrite, hchk, hok] at hev
            rcases hev with h | h
            · exact Or.inl h
            · exact Or.inr (by subst h; simp only [ctrlWriteOkBits]; decide)
          · simp [ptdr_autorestart, st_ctrlWrite, hchk, hok] at hev
            rcases hev with h | h
            · exact Or.inl h
            · exact Or.inr (by subst h; simp only [ctrlWriteOkBits]; decide)
  · have hc : checkDevPtr dev = false := by simpa using hchk
    refine ⟨?_, ?_, ?_⟩ <;> intro ev hev
    · simp only [ptdr_start, hc] at hev
      exact Or.inl (by simpa using hev)
    · simp only [ptdr_continue, hc] at hev
      exact Or.inl (by simpa using hev)
    · simp only [ptdr_autorestart, hc] at hev
      exact Or.inl (by simpa using hev)

/-- C4 (amended) witness: a concrete ptdr_start run from an empty trace
adds only allowed events. -/
theorem ctrl_ops_write_bits_witness :
    ∀ ev ∈ (ptdr_start (some devC) (fun _ => some 0x80) (fun _ => true)
      ⟨0, 0, []⟩).2.evs, ev ∈ ([] : List Ev) ∨ ctrlWriteOkBits ev = true :=
  (ctrl_ops_write_bits (some devC) (fun _ => some 0x80) (fun _ => true) true
    ⟨0, 0, []⟩).1

/-- C9: after a successful ptdr_dev_destroy on a valid handle, every
public device operation invoked on the destroyed handle returns -EINVAL
and performs no transport access (the trace gains no event), because
destroy clears the magic signature that every entry point checks
first. -/
theorem destroyed_handle_rejected (dev : PtdrDev)
    (hdev : checkDevPtr (some dev) = true)
    (hw : Nat → Option Nat) (wr : Nat → Bool) (qw qr : Nat → Nat → Int)
    (rv : Nat → Option Nat) (s : RunSt) (f : FileModel) (enable : Bool)
    (dval sc ri rp dt sd base endA vs addr size : Nat) :
    (ptdr_dev_destroy (some dev)).1 = 0 ∧
    ptdr_start (ptdr_dev_destroy (some dev)).2 hw wr s = (-errInval, s) ∧
    ptdr_continue (ptdr_dev_destroy (some dev)).2 hw wr s = (-errInval, s) ∧
    ptdr_isdone (ptdr_dev_destroy (some dev)).2 hw s = (-errInval, s) ∧
    ptdr_isidle (ptdr_dev_destroy (some dev)).2 hw s = (-errInval, s) ∧
    ptdr_isready (ptdr_dev_destroy (some dev)).2 hw s = (-errInval, s) ∧
    ptdr_autorestart (ptdr_dev_destroy (some dev)).2 wr enable s = (-errInval, s) ∧
    ptdr_set_numtimes (ptdr_dev_destroy (some dev)).2 qw dval = (-errInval, []) ∧
    ptdr_get_numtimes (ptdr_dev_destroy (some dev)).2 rv = (-errInval, none, []) ∧
    ptdr_set_durations (ptdr_dev_destroy (some dev)).2 qw dval = (-errInval, []) ∧
    ptdr_get_durations (ptdr_dev_destroy (some dev)).2 rv = (-errInval, none, []) ∧
    ptdr_set_route (ptdr_dev_destroy (some dev)).2 qw dval = (-errInval, []) ∧
    ptdr_get_route (ptdr_dev_destroy (some dev)).2 rv = (-errInval, none, []) ∧
    ptdr_set_position (ptdr_dev_destroy (some dev)).2 qw dval = (-errInval, []) ∧
    ptdr_get_position (ptdr_dev_destroy (some dev)).2 rv = (-errInval, none, []) ∧
    ptdr_set_departure (ptdr_dev_destroy (some dev)).2 qw dval = (-errInval, []) ∧
    ptdr_get_departure (ptdr_dev_destroy (some dev)).2 rv = (-errInval, none, []) ∧
    ptdr_set_seed (ptdr_dev_destroy (some dev)).2 qw dval = (-errInval, []) ∧
    ptdr_get_seed (ptdr_dev_destroy (some dev)).2 rv = (-errInval, none, []) ∧
    ptdr_set_base (ptdr_dev_destroy (some dev)).2 qw dval = (-errInval, []) ∧
    ptdr_get_base (ptdr_dev_destroy (some dev)).2 rv = (-errInval, none, []) ∧
    ptdr_interruptglobal (ptdr_dev_destroy (some dev)).2 qw enable = (-errInval, []) ∧
    ptdr_set_interruptconf (ptdr_dev_destroy (some dev)).2 qw dval = (-errInval, []) ∧
    ptdr_get_interruptconf (ptdr_dev_destroy (some dev)).2 rv = (-errInval, none, []) ∧
    ptdr_get_interruptstatus (ptdr_dev_destroy (some dev)).2 rv = (-errInval, none, []) ∧
    ptdr_dev_conf (ptdr_dev_destroy (some dev)).2 f sc ri rp dt sd base endA qw = (-errInval, []) ∧
    ptdr_dev_get_durv (ptdr_dev_destroy (some dev)).2 qr vs sc base = (-errInval, []) ∧
    ptdr_mem_write (ptdr_dev_destroy (some dev)).2 qw size addr = (-errInval, []) ∧
    ptdr_mem_read (ptdr_dev_destroy (some dev)).2 qr size addr = (-errInval, []) := by
  have h0 : decide ((0 : Nat) = PTDR_MAGIC) = false := by decide
  have hdd : (ptdr_dev_destroy (some dev)).2 = some { dev with sign := 0 } := by
    simp [ptdr_dev_destroy, hdev]
  have hdead : checkDevPtr (some { dev with sign := 0 }) = false := by
    simp [checkDevPtr, h0]
  rw [hdd]
  refine ⟨by simp [ptdr_dev_destroy, hdev], ?_, ?_, ?_, ?_, ?_, ?_, ?_, ?_, ?_,
    ?_, ?_, ?_, ?_, ?_, ?_, ?_, ?_, ?_, ?_, ?_, ?_, ?_, ?_, ?_, ?_, ?_, ?_, ?_⟩ <;>
    simp [ptdr_start, ptdr_continue, ptdr_isdone, ptdr_isidle, ptdr_isready,
      ptdr_autorestart, ptdr_set_numtimes, ptdr_get_numtimes,
      ptdr_set_durations, ptdr_get_durations, ptdr_set_route, ptdr_get_route,
      ptdr_set_position, ptdr_get_position, ptdr_set_departure,
      ptdr_get_departure, ptdr_set_seed, ptdr_get_seed, ptdr_set_base,
      ptdr_get_base, ptdr_interruptglobal, ptdr_set_interruptconf,
      ptdr_get_interruptconf, ptdr_get_interruptstatus, ptdr_dev_conf,
      ptdr_dev_get_durv, ptdr_mem_write, ptdr_mem_read,
      reg_setter, reg_getter, hdead]

/-- C9 witness: on the concrete valid handle devC, destroy succeeds and a
subsequent ptdr_start is rejected with the handle error. -/
theorem destroyed_handle_rejected_witness :
    (ptdr_dev_destroy (some devC)).1 = 0 ∧
    ptdr_start (ptdr_dev_destroy (some devC)).2 (fun _ => some 0)
      (fun _ => true) ⟨0, 0, []⟩ = (-errInval, ⟨0, 0, []⟩) := by
  have h := destroyed_handle_rejected devC (by decide) (fun _ => some 0)
    (fun _ => true) (fun _ _ => 4) (fun _ _ => 4) (fun _ => some 0)
    ⟨0, 0, []⟩ ⟨fun _ => 0, 0⟩ true 0 0 0 0 0 0 0 0 0 0 0
  exact ⟨h.1, h.2.1⟩

/-- C10: with a valid API handle, mem_write and mem_read enforce the
device-memory window on every call (all address arithmetic in uint64):
a start address mem_start + offset outside [mem_start, mem_end) yields
-EFAULT with no transport access; a start in the window whose
mem_addr + size exceeds mem_end yields -EFBIG with no transport access;
otherwise the request is forwarded to the underlying transfer at
mem_addr, as the only transport access. -/
theorem mem_rw_window_checks (a : PtdrApi) (qw qr : Nat → Nat → Int)
    (size offset : Nat) (hapi : checkApiPtr (some a) = true)
    (hdchk : checkDevPtr a.dev = true) :
    ((u64 (a.memStart + offset) < a.memStart ∨
        u64 (a.memStart + offset) ≥ a.memEnd) →
      mem_write (some a) qw size offset = (-errFault, []) ∧
      mem_read (some a) qr size offset = (-errFault, [])) ∧
    ((a.memStart ≤ u64 (a.memStart + offset) ∧
        u64 (a.memStart + offset) < a.memEnd ∧
        u64 (u64 (a.memStart + offset) + size) > a.memEnd) →
      mem_write (some a) qw size offset = (-errFbig, []) ∧
      mem_read (some a) qr size offset = (-errFbig, [])) ∧
    ((a.memStart ≤ u64 (a.memStart + offset) ∧
        u64 (a.memStart + offset) < a.memEnd ∧
        u64 (u64 (a.memStart + offset) + size) ≤ a.memEnd) →
      mem_write (some a) qw size offset =
        (qw (u64 (a.memStart + offset)) size,
          [Ev.devWrite (u64 (a.memStart + offset)) size]) ∧
      mem_read (some a) qr size offset =
        (qr (u64 (a.memStart + offset)) size,
          [Ev.devRead (u64 (a.memStart + offset)) size])) := by
  refine ⟨fun h1 => ?_, fun h2 => ?_, fun h3 => ?_⟩
  · constructor <;>
      simp [mem_write, mem_read, hapi, if_pos h1]
  · have hno : ¬ (u64 (a.memStart + offset) < a.memStart ∨
        u64 (a.memStart + offset) ≥ a.memEnd) := by omega
    constructor <;>
      simp [mem_write, mem_read, hapi, hno, if_pos h2.2.2]
  · have hno : ¬ (u64 (a.memStart + offset) < a.memStart ∨
        u64 (a.memStart + offset) ≥ a.memEnd) := by omega
    have hns : ¬ (u64 (u64 (a.memStart + offset) + size) > a.memEnd) := by omega
    constructor <;>
      simp [mem_write, mem_read, ptdr_mem_write, ptdr_mem_read, hapi, hno,
        hns, hdchk]

theorem file160_byte (q : Nat) (h : 9 ≤ q) : file160.byteAt q = 0 := by
  show (if q = 8 then 160 else 0) = 0
  rw [if_neg (by omega)]

theorem file160_le8 (pos : Nat) (h : 9 ≤ pos) : le8 file160 pos = 0 := by
  unfold le8
  rw [file160_byte pos (by omega), file160_byte (pos + 1) (by omega),
    file160_byte (pos + 2) (by omega), file160_byte (pos + 3) (by omega),
    file160_byte (pos + 4) (by omega), file160_byte (pos + 5) (by omega),
    file160_byte (pos + 6) (by omega), file160_byte (pos + 7) (by omega)]

theorem file160_fread8 (pos : Nat) (h : 9 ≤ pos) (hlen : pos + 8 ≤ file160.len) :
    fread8 file160 pos = some (0, pos + 8) := by
  unfold fread8
  rw [if_pos hlen, file160_le8 pos h]

theorem file160_read_words : ∀ n pos, 9 ≤ pos → pos + 8 * n ≤ file160.len →
    read_words file160 n pos = some (List.replicate n 0, pos + 8 * n) := by
  intro n
  induction n with
  | zero => intro pos _ _; simp [read_words]
  | succ n ih =>
    intro pos hp hlen
    rw [read_words, file160_fread8 pos hp (by omega)]
    dsimp only
    rw [ih (pos + 8) (by omega) (by omega)]
    simp [List.replicate_succ]
    omega

theorem file160_read_profiles : ∀ j pos, 9 ≤ pos →
    pos + 64 * j ≤ file160.len →
    read_profiles file160 j pos =
      some (List.replicate j profile0, pos + 64 * j) := by
  intro j
  induction j with
  | zero => intro pos _ _; simp [read_profiles]
  | succ j ih =>
    intro pos hp hlen
    rw [read_profiles, show PROFILE_VAL_NUM = 4 from rfl,
      file160_read_words 4 pos hp (by omega)]
    dsimp only
    rw [file160_read_words 4 (pos + 8 * 4) (by omega) (by omega)]
    dsimp only
    rw [ih (pos + 8 * 4 + 8 * 4) (by omega) (by omega)]
    dsimp only
    have harith : pos + 8 * 4 + 8 * 4 + 64 * j = pos + 64 * (j + 1) := by omega
    rw [harith]
    have hrep : List.replicate (j + 1) profile0 =
        profile0 :: List.replicate j profile0 := rfl
    rw [hrep]
    rfl

theorem file160_read_segments : ∀ n pos, 9 ≤ pos →
    pos + seg_bytes * n ≤ file160.len →
    read_segments file160 n pos =
      some (List.replicate n seg0, pos + seg_bytes * n) := by
  intro n
  induction n with
  | zero => intro pos _ _; simp [read_segments]
  | succ n ih =>
    intro pos hp hlen
    have hsb : seg_bytes = 43032 := by rfl
    rw [read_segments, file160_fread8 pos hp (by rw [hsb] at hlen; omega)]
    dsimp only
    rw [show pos + 8 + 0 = pos + 8 from by omega,
      file160_fread8 (pos + 8) (by omega) (by rw [hsb] at hlen; omega)]
    dsimp only
    rw [file160_fread8 (pos + 8 + 8) (by omega) (by rw [hsb] at hlen; omega)]
    dsimp only
    rw [show PROFILES_NUM = 672 from rfl,
      file160_read_profiles 672 (pos + 8 + 8 + 8) (by omega)
        (by rw [hsb] at hlen; omega)]
    dsimp only
    rw [ih (pos + 8 + 8 + 8 + 64 * 672) (by omega)
      (by rw [hsb] at hlen ⊢; omega)]
    dsimp only
    rw [hsb]
    have harith : pos + 8 + 8 + 8 + 64 * 672 + 43032 * n = pos + 43032 * (n + 1) := by
      omega
    rw [harith]
    have hrep : List.replicate (n + 1) seg0 = seg0 :: List.replicate n seg0 := rfl
    rw [hrep]
    rfl

/-- C8: the route parser returns -EINVAL exactly when the segment count
word read at offset 8 exceeds MAX_SIZE_SEGMENTS (160); in that case the
outcome depends only on the first 16 bytes of the file (no segment body
byte is read) and no route descriptor is produced; a count of exactly
MAX_SIZE_SEGMENTS passes the check, and on a well-formed file with 160
zero segments the parse succeeds with a fully populated descriptor. -/
theorem route_parser_segment_limit :
    (∀ f : FileModel, 16 ≤ f.len → le8 f 8 > MAX_SIZE_SEGMENTS →
      ptdr_read_route_from_file f = Except.error (-errInval)) ∧
    (∀ f g : FileModel, 16 ≤ f.len → 16 ≤ g.len →
      (∀ p, p < 16 → f.byteAt p = g.byteAt p) → le8 f 8 > MAX_SIZE_SEGMENTS →
      ptdr_read_route_from_file f = ptdr_read_route_from_file g) ∧
    (∀ f : FileModel, ptdr_read_route_from_file f = Except.error (-errInval) →
      16 ≤ f.len ∧ le8 f 8 > MAX_SIZE_SEGMENTS) ∧
    ptdr_read_route_from_file file160 =
      Except.ok ⟨0, MAX_SIZE_SEGMENTS, List.replicate MAX_SIZE_SEGMENTS seg0⟩ := by
  have hreject : ∀ f : FileModel, 16 ≤ f.len → le8 f 8 > MAX_SIZE_SEGMENTS →
      ptdr_read_route_from_file f = Except.error (-errInval) := by
    intro f hlen hcount
    have h1 : fread8 f 0 = some (le8 f 0, 8) := by
      unfold fread8
      rw [if_pos (by omega : 0 + 8 ≤ f.len)]
    have h2 : fread8 f 8 = some (le8 f 8, 16) := by
      unfold fread8
      rw [if_pos (by omega : 8 + 8 ≤ f.len)]
    rw [ptdr_read_route_from_file, h1]
    simp only []
    rw [h2]
    simp only []
    rw [if_pos hcount]
  refine ⟨hreject, ?_, ?_, ?_⟩
  · intro f g hf hg hagree hcount
    have hg8 : le8 g 8 = le8 f 8 := by
      unfold le8
      rw [hagree 8 (by omega), hagree 9 (by omega), hagree 10 (by omega),
        hagree 11 (by omega), hagree 12 (by omega), hagree 13 (by omega),
        hagree 14 (by omega), hagree 15 (by omega)]
    rw [hreject f hf hcount, hreject g hg (by omega)]
  · intro f hparse
    rw [ptdr_read_route_from_file] at hparse
    split at hparse
    · simp [errIo, errInval] at hparse
    · rename_i freq p1 heq1
      split at hparse
      · simp [errIo, errInval] at hparse
      · rename_i count p2 heq2
        split at hparse
        · rename_i hcount
          unfold fread8 at heq1
          split at heq1
          · rename_i hlen1
            simp only [Option.some.injEq, Prod.mk.injEq] at heq1
            unfold fread8 at heq2
            split at heq2
            · rename_i hlen2
              simp only [Option.some.injEq, Prod.mk.injEq] at heq2
              refine ⟨by omega, ?_⟩
              have : count = le8 f p1 := heq2.1.symm
              rw [this, ← heq1.2] at hcount
              simpa using hcount
            · exact absurd heq2 (by simp)
          · exact absurd heq1 (by simp)
        · split at hparse
          · simp [errIo, errInval] at hparse
          · simp at hparse
  · have hlen : file160.len = 16 + seg_bytes * 160 := by
      show 16 + MAX_SIZE_SEGMENTS * seg_bytes = 16 + seg_bytes * 160
      rw [Nat.mul_comm]
      rfl
    have h1 : fread8 file160 0 = some (0, 8) := by
      unfold fread8
      rw [if_pos (by rw [hlen]; omega)]
      show some (le8 file160 0, 0 + 8) = some (0, 8)
      have : le8 file160 0 = 0 := by decide
      rw [this]
    have h2 : fread8 file160 8 = some (160, 16) := by
      unfold fread8
      rw [if_pos (by rw [hlen]; omega)]
      show some (le8 file160 8, 8 + 8) = some (160, 16)
      have : le8 file160 8 = 160 := by decide
      rw [this]
    rw [ptdr_read_route_from_file, h1]
    simp only []
    rw [h2]
    simp only []
    rw [if_neg (by decide : ¬ (160 : Nat) > MAX_SIZE_SEGMENTS)]
    rw [show (160 : Nat) = MAX_SIZE_SEGMENTS from rfl]
    rw [file160_read_segments MAX_SIZE_SEGMENTS 16 (by omega)
      (by rw [hlen]; rfl)]

/-- C8 witness: a file whose count word is 161 with exactly the 16 header
bytes present is rejected with -EINVAL. -/
theorem route_parser_segment_limit_witness :
    ptdr_read_route_from_file file161 = Except.error (-errInval) :=
  route_parser_segment_limit.1 file161 (by decide) (by decide)

theorem parse_error_vals (f : FileModel) (e : Int)
    (h : ptdr_read_route_from_file f = Except.error e) :
    e = -errIo ∨ e = -errInval := by
  rw [ptdr_read_route_from_file] at h
  split at h
  · simp only [Except.error.injEq] at h
    exact Or.inl h.symm
  · split at h
    · simp only [Except.error.injEq] at h
      exact Or.inl h.symm
    · split at h
      · simp only [Except.error.injEq] at h
        exact Or.inr h.symm
      · split at h
        · simp only [Except.error.injEq] at h
          exact Or.inl h.symm
        · exact absurd h (by simp)

theorem step_ne_nomem (a : Int) (t : List Ev) (rest : Int × List Ev)
    (c : Prop) [Decidable c] (ha : a ≠ -errNoMem) (hrest : rest.1 ≠ -errNoMem) :
    (if c then (a, t) else rest).1 ≠ -errNoMem := by
  split
  · simpa using ha
  · exact hrest

theorem setter_step_ne_nomem (sres : Int × List Ev) (t : List Ev)
    (rest : Int × List Ev) (hs : sres.1 = -errIo ∨ sres.1 = 0)
    (hrest : rest.1 ≠ -errNoMem) :
    (if sres.1 ≠ 0 then (sres.1, t) else rest).1 ≠ -errNoMem := by
  rcases hs with h | h <;> rw [h]
  · rw [if_pos (by decide : (-errIo : Int) ≠ 0)]
    dsimp only
    decide
  · rw [if_neg (by decide : ¬ ((0 : Int) ≠ 0))]
    exact hrest

theorem reg_setter_fst (d : PtdrDev) (qw : Nat → Nat → Int) (reg val : Nat)
    (hdev : checkDevPtr (some d) = true) :
    (reg_setter (some d) qw reg val).1 = -errIo ∨
      (reg_setter (some d) qw reg val).1 = 0 := by
  unfold reg_setter
  rw [if_neg (by simp [hdev])]
  dsimp only
  by_cases h : qw (u64 (d.base + reg)) REG_SIZE ≠ (REG_SIZE : Int)
  · rw [if_pos h]
    exact Or.inl rfl
  · rw [if_neg h]
    exact Or.inr rfl

theorem set_base_fst (d : PtdrDev) (qw : Nat → Nat → Int) (val : Nat)
    (hdev : checkDevPtr (some d) = true) :
    (ptdr_set_base (some d) qw val).1 = -errIo ∨
      (ptdr_set_base (some d) qw val).1 = 0 := by
  unfold ptdr_set_base
  rw [if_neg (by simp [hdev])]
  dsimp only
  by_cases h1 : qw (u64 (d.base + PTDR_CTRL_ADDR_BASE)) REG_SIZE ≠ (REG_SIZE : Int)
  · rw [if_pos h1]
    exact Or.inl rfl
  · rw [if_neg h1]
    by_cases h2 : qw (u64 (d.base + PTDR_CTRL_ADDR_BASE + REG_SIZE)) REG_SIZE ≠ (REG_SIZE : Int)
    · rw [if_pos h2]
      exact Or.inl rfl
    · rw [if_neg h2]
      exact Or.inr rfl

/-- C2: for every samples_count, base and end, ptdr_dev_conf on a valid
handle returns the capacity error -ENOMEM iff the computed total payload
size (duration header + samples_count eight-byte entries + the route
struct + start position + departure time + seed, in uint64 arithmetic)
strictly exceeds the window end - base; total size exactly equal to the
window passes the capacity check; and on capacity failure the call
returns before any device-memory or register write. -/
theorem conf_capacity_check (dev : Option PtdrDev) (f : FileModel)
    (sc ri rp dt sd base endA : Nat) (qw : Nat → Nat → Int)
    (hdev : checkDevPtr dev = true) :
    ((ptdr_dev_conf dev f sc ri rp dt sd base endA qw).1 = -errNoMem ↔
      ptdr_data_size sc > mem_window base endA) ∧
    (ptdr_data_size sc > mem_window base endA →
      ptdr_dev_conf dev f sc ri rp dt sd base endA qw = (-errNoMem, [])) := by
  by_cases hc : ptdr_data_size sc > mem_window base endA
  · have hres : ptdr_dev_conf dev f sc ri rp dt sd base endA qw = (-errNoMem, []) := by
      rw [ptdr_dev_conf, if_neg (by simp [hdev]), if_pos hc]
    exact ⟨⟨fun _ => hc, fun _ => by rw [hres]⟩, fun _ => hres⟩
  · have hres : (ptdr_dev_conf dev f sc ri rp dt sd base endA qw).1 ≠ -errNoMem := by
      match dev, hdev with
      | some d, hdev =>
        rw [ptdr_dev_conf, if_neg (by simp [hdev]), if_neg hc]
        cases hparse : ptdr_read_route_from_file f with
        | error e =>
          rcases parse_error_vals f e hparse with he | he <;> subst he <;>
            (dsimp only; decide)
        | ok r =>
          refine step_ne_nomem _ _ _ _ (by decide)
            (step_ne_nomem _ _ _ _ (by decide)
              (setter_step_ne_nomem _ _ _
                (reg_setter_fst d qw PTDR_CTRL_ADDR_DUR 0 hdev)
                (step_ne_nomem _ _ _ _ (by decide)
                  (setter_step_ne_nomem _ _ _
                    (reg_setter_fst d qw PTDR_CTRL_ADDR_ROUTE _ hdev)
                    (step_ne_nomem _ _ _ _ (by decide)
                      (setter_step_ne_nomem _ _ _
                        (reg_setter_fst d qw PTDR_CTRL_ADDR_POS _ hdev)
                        (step_ne_nomem _ _ _ _ (by decide)
                          (setter_step_ne_nomem _ _ _
                            (reg_setter_fst d qw PTDR_CTRL_ADDR_DEP _ hdev)
                            (step_ne_nomem _ _ _ _ (by decide)
                              (setter_step_ne_nomem _ _ _
                                (reg_setter_fst d qw PTDR_CTRL_ADDR_SEED _ hdev)
                                (setter_step_ne_nomem _ _ _
                                  (set_base_fst d qw (u64 base) hdev)
                                  (by simp [errNoMem]))))))))))))
    exact ⟨⟨fun h => absurd h hres, fun h => absurd h hc⟩, fun h => absurd h hc⟩

/-- C2 witness: on the concrete valid handle with an empty window and a
huge sample count, configuration fails with -ENOMEM and no access. -/
theorem conf_capacity_check_witness :
    ptdr_dev_conf (some devC) file161 (2 ^ 60) 0 0 0 0 0 0 (fun _ _ => 0) =
      (-errNoMem, []) :=
  (conf_capacity_check (some devC) file161 (2 ^ 60) 0 0 0 0 0 0
    (fun _ _ => 0) (by decide)).2 (by decide)

theorem contCount_append (l1 l2 : List Ev) :
    contCount (l1 ++ l2) = contCount l1 + contCount l2 := by
  simp [contCount, List.filter_append]

theorem contCount_isready (dev : Option PtdrDev) (hw : Nat → Option Nat)
    (s : RunSt) : contCount (ptdr_isready dev hw s).2.evs = contCount s.evs := by
  by_cases hchk : checkDevPtr dev = true
  · match dev with
    | none => simp [checkDevPtr] at hchk
    | some d =>
      rcases hd : hw s.i with _ | v <;>
        simp [ptdr_isready, st_ctrlRead, hchk, hd, contCount_append,
          contCount, isContWrite]
  · have hc : checkDevPtr dev = false := by simpa using hchk
    simp [ptdr_isready, hc]

theorem contCount_isdone (dev : Option PtdrDev) (hw : Nat → Option Nat)
    (s : RunSt) : contCount (ptdr_isdone dev hw s).2.evs = contCount s.evs := by
  by_cases hchk : checkDevPtr dev = true
  · match dev with
    | none => simp [checkDevPtr] at hchk
    | some d =>
      rcases hd : hw s.i with _ | v <;>
        simp [ptdr_isdone, st_ctrlRead, hchk, hd, contCount_append,
          contCount, isContWrite]
  · have hc : checkDevPtr dev = false := by simpa using hchk
    simp [ptdr_isdone, hc]

theorem contCount_isidle (dev : Option PtdrDev) (hw : Nat → Option Nat)
    (s : RunSt) : contCount (ptdr_isidle dev hw s).2.evs = contCount s.evs := by
  by_cases hchk : checkDevPtr dev = true
  · match dev with
    | none => simp [checkDevPtr] at hchk
    | some d =>
      rcases hd : hw s.i with _ | v <;>
        simp [ptdr_isidle, st_ctrlRead, hchk, hd, contCount_append,
          contCount, isContWrite]
  · have hc : checkDevPtr dev = false := by simpa using hchk
    simp [ptdr_isidle, hc]

theorem contCount_doneOrIdle (dev : Option PtdrDev) (hw : Nat → Option Nat)
    (s : RunSt) : contCount (doneOrIdle dev hw s).2.evs = contCount s.evs := by
  unfold doneOrIdle
  rcases h1 : ptdr_isdone dev hw s with ⟨d, s1⟩
  have hc1 := contCount_isdone dev hw s
  rw [h1] at hc1
  dsimp only
  split
  · exact hc1
  · rcases h2 : ptdr_isidle dev hw s1 with ⟨l, s2⟩
    have hc2 := contCount_isidle dev hw s1
    rw [h2] at hc2
    dsimp only
    split <;> exact hc2.trans hc1

theorem contbit_start_clear (v : Nat) : ((v &&& 0x80) ||| 0x01) &&& 0x10 = 0 := by
  rcases and80_cases v with h | h <;> rw [h] <;> decide

theorem contbit_cont_set (v : Nat) : ((v &&& 0x80) ||| 0x10) &&& 0x10 ≠ 0 := by
  rcases and80_cases v with h | h <;> rw [h] <;> decide

theorem contCount_start (dev : Option PtdrDev) (hw : Nat → Option Nat)
    (wr : Nat → Bool) (s : RunSt) :
    contCount (ptdr_start dev hw wr s).2.evs = contCount s.evs := by
  by_cases hchk : checkDevPtr dev = true
  · match dev with
    | none => simp [checkDevPtr] at hchk
    | some d =>
      rcases hd : hw s.i with _ | v
      · simp [ptdr_start, st_ctrlRead, hchk, hd, contCount_append,
          contCount, isContWrite]
      · by_cases hbusy : v % 2 = 1
        · simp [ptdr_start, st_ctrlRead, hchk, hd, hbusy, contCount_append,
            contCount, isContWrite]
        · rcases hok : wr s.w with _ | _ <;>
            simp [ptdr_start, st_ctrlRead, st_ctrlWrite, hchk, hd, hbusy, hok,
              contCount_append, contCount, isContWrite, contbit_start_clear]
  · have hc : checkDevPtr dev = false := by simpa using hchk
    simp [ptdr_start, hc]

theorem contCount_continue (dev : Option PtdrDev) (hw : Nat → Option Nat)
    (wr : Nat → Bool) (s : RunSt) (v : Nat)
    (hchk : checkDevPtr dev = true) (hd : hw s.i = some v) :
    contCount (ptdr_continue dev hw wr s).2.evs = contCount s.evs + 1 := by
  match dev with
  | none => simp [checkDevPtr] at hchk
  | some dd =>
    rcases hok : wr s.w with _ | _ <;>
      simp [ptdr_continue, st_ctrlRead, st_ctrlWrite, hchk, hd, hok,
        contCount_append, contCount, isContWrite, contbit_cont_set]

theorem contCount_wait_ready0 (dev : Option PtdrDev) (hw : Nat → Option Nat) :
    ∀ fuel s s1, wait_ready0 dev hw fuel s = some s1 →
      contCount s1.evs = contCount s.evs := by
  intro fuel
  induction fuel with
  | zero => intro s s1 h; simp [wait_ready0] at h
  | succ fuel ih =>
    intro s s1 h
    rw [wait_ready0] at h
    rcases h1 : ptdr_isready dev hw s with ⟨r, sr⟩
    have hc1 := contCount_isready dev hw s
    rw [h1] at hc1
    rw [h1] at h
    dsimp only at h
    by_cases hr : r = 0
    · rw [if_pos hr] at h
      exact (ih sr s1 h).trans hc1
    · rw [if_neg hr] at h
      simp only [Option.some.injEq] at h
      rw [← h]
      exact hc1

theorem contCount_wait_ready_t (dev : Option PtdrDev) (hw : Nat → Option Nat) :
    ∀ c s, contCount (wait_ready_t dev hw c s).2.evs = contCount s.evs := by
  intro c
  induction c using Nat.strong_induction_on with
  | _ c ih =>
    intro s
    match c with
    | 0 => simp [wait_ready_t]
    | 1 =>
      rcases h1 : ptdr_isready dev hw s with ⟨r, sr⟩
      have hc1 := contCount_isready dev hw s
      rw [h1] at hc1
      simp only [wait_ready_t, h1]
      split <;> exact hc1
    | c + 2 =>
      rcases h1 : ptdr_isready dev hw s with ⟨r, sr⟩
      have hc1 := contCount_isready dev hw s
      rw [h1] at hc1
      simp only [wait_ready_t, h1]
      split
      · exact hc1
      · exact (ih (c + 1) (by omega) sr).trans hc1

theorem contCount_wait_done_t (dev : Option PtdrDev) (hw : Nat → Option Nat) :
    ∀ c s, contCount (wait_done_t dev hw c s).2.evs = contCount s.evs := by
  intro c
  induction c using Nat.strong_induction_on with
  | _ c ih =>
    intro s
    match c with
    | 0 => simp [wait_done_t]
    | 1 =>
      rcases h1 : doneOrIdle dev hw s with ⟨b, sr⟩
      have hc1 := contCount_doneOrIdle dev hw s
      rw [h1] at hc1
      simp only [wait_done_t, h1]
      split <;> exact hc1
    | c + 2 =>
      rcases h1 : doneOrIdle dev hw s with ⟨b, sr⟩
      have hc1 := contCount_doneOrIdle dev hw s
      rw [h1] at hc1
      simp only [wait_done_t, h1]
      split
      · exact hc1
      · exact (ih (c + 1) (by omega) sr).trans hc1

theorem contCount_phase3 (dev : Option PtdrDev) (hw : Nat → Option Nat)
    (fuel timeout : Nat) (s : RunSt) (r : Int) (s1 : RunSt)
    (h : run_phase3 dev hw fuel timeout s = some (r, s1)) :
    contCount s1.evs = contCount s.evs := by
  rw [run_phase3] at h
  by_cases ht : timeout = 0
  · rw [if_pos ht] at h
    rcases hw0 : wait_ready0 dev hw fuel s with _ | sr <;> rw [hw0] at h
    · simp at h
    · simp only [Option.some.injEq, Prod.mk.injEq] at h
      rw [← h.2]
      exact contCount_wait_ready0 dev hw fuel s sr hw0
  · rw [if_neg ht] at h
    rcases hwd : wait_done_t dev hw timeout s with ⟨b, sr⟩
    have hc1 := contCount_wait_done_t dev hw timeout s
    rw [hwd] at hc1
    rw [hwd] at h
    simp only [Option.some.injEq, Prod.mk.injEq] at h
    rw [← h.2]
    exact hc1

theorem contCount_phase1 (dev : Option PtdrDev) (hw : Nat → Option Nat)
    (fuel timeout : Nat) (b : Bool) (s1 : RunSt)
    (h : run_phase1 dev hw fuel timeout = some (b, s1)) :
    contCount s1.evs = 0 := by
  rw [run_phase1] at h
  by_cases ht : timeout = 0
  · rw [if_pos ht] at h
    rcases hw0 : wait_ready0 dev hw fuel ⟨0, 0, []⟩ with _ | sr <;> rw [hw0] at h
    · simp at h
    · simp only [Option.some.injEq, Prod.mk.injEq] at h
      rw [← h.2]
      exact contCount_wait_ready0 dev hw fuel ⟨0, 0, []⟩ sr hw0
  · rw [if_neg ht] at h
    rcases hwt : wait_ready_t dev hw timeout ⟨0, 0, []⟩ with ⟨b1, sr⟩
    have hc1 := contCount_wait_ready_t dev hw timeout ⟨0, 0, []⟩
    rw [hwt] at hc1
    rw [hwt] at h
    simp only [Option.some.injEq, Prod.mk.injEq] at h
    rw [← h.2]
    exact hc1

theorem run_kernel_after_ready (a : PtdrApi) (fuel timeout : Nat)
    (hw : Nat → Option Nat) (wr : Nat → Bool) (s1 : RunSt)
    (hapi : checkApiPtr (some a) = true)
    (hp1 : run_phase1 a.dev hw fuel timeout = some (false, s1)) :
    ptdr_run_kernel fuel (some a) timeout hw wr =
      (match ptdr_start a.dev hw wr s1 with
       | (r, s2) =>
         if r < 0 then some (r, s2) else
         match ptdr_isdone a.dev hw s2 with
         | (d, s3) =>
           if d ≠ 0 then
             match ptdr_continue a.dev hw wr s3 with
             | (c, s4) =>
               if c < 0 then some (c, s4)
               else run_phase3 a.dev hw fuel timeout s4
           else run_phase3 a.dev hw fuel timeout s3) := by
  rw [ptdr_run_kernel, if_neg (by simp [hapi])]
  dsimp only
  rw [hp1]

/-- C5 (amended): when ptdr_start reads the control register and observes
ap_start (bit 0) already set, it returns the distinguishable non-fatal
busy condition -EBUSY without writing the control register (only the read
is issued; the write index is untouched); ptdr_run_kernel, however,
passes this result through ERR_CHECK and propagates -EBUSY to its caller
as its negative return value. -/
theorem start_busy_behavior (d : PtdrDev) (hw : Nat → Option Nat)
    (wr : Nat → Bool) (s : RunSt) (v : Nat) (a : PtdrApi)
    (fuel timeout : Nat) (s1 : RunSt) (v1 : Nat)
    (hdev : checkDevPtr (some d) = true)
    (hv : hw s.i = some v) (hbusy : v &&& 0x01 ≠ 0)
    (hapi : checkApiPtr (some a) = true) (hd1 : a.dev = some d)
    (hp1 : run_phase1 a.dev hw fuel timeout = some (false, s1))
    (hv1 : hw s1.i = some v1) (hbusy1 : v1 &&& 0x01 ≠ 0) :
    ptdr_start (some d) hw wr s =
      (-errBusy, ⟨s.i + 1, s.w,
        s.evs ++ [Ev.regRead (u64 (d.base + PTDR_CTRL_ADDR_CTRL))]⟩) ∧
    ptdr_run_kernel fuel (some a) timeout hw wr =
      some (-errBusy, ⟨s1.i + 1, s1.w,
        s1.evs ++ [Ev.regRead (u64 (d.base + PTDR_CTRL_ADDR_CTRL))]⟩) := by
  have hstart : ∀ t : RunSt, ∀ w, hw t.i = some w → w &&& 0x01 ≠ 0 →
      ptdr_start (some d) hw wr t =
        (-errBusy, ⟨t.i + 1, t.w,
          t.evs ++ [Ev.regRead (u64 (d.base + PTDR_CTRL_ADDR_CTRL))]⟩) := by
    intro t w hwv hb
    rw [ptdr_start, if_neg (by simp [hdev])]
    dsimp only [st_ctrlRead]
    rw [hwv]
    dsimp only
    rw [if_pos hb]
  refine ⟨hstart s v hv hbusy, ?_⟩
  rw [run_kernel_after_ready a fuel timeout hw wr s1 hapi hp1, hd1,
    hstart s1 v1 hv1 hbusy1]
  dsimp only
  rw [if_pos (by decide : (-errBusy : Int) < 0)]

/-- C5 counterexample: in a concrete run the ready poll passes, the next
control-register read shows ap_start set, and ptdr_run_kernel returns the
busy result -EBUSY, a negative error value, to its caller. -/
theorem run_kernel_propagates_busy_cex :
    ptdr_run_kernel 1 (some apiC) 5 (fun i => if i = 0 then some 0 else some 1)
      (fun _ => true) =
      some (-errBusy, ⟨2, 0, [Ev.regRead 0x400000000, Ev.regRead 0x400000000]⟩) ∧
    (-errBusy : Int) < 0 := by
  constructor <;> decide

/-- C5 witness: the amended theorem applied to the concrete busy run. -/
theorem start_busy_behavior_witness :
    ptdr_start (some devC) (fun i => if i = 0 then some 0 else some 1)
      (fun _ => true) ⟨1, 0, []⟩ =
      (-errBusy, ⟨2, 0, [Ev.regRead (u64 (devC.base + PTDR_CTRL_ADDR_CTRL))]⟩) ∧
    ptdr_run_kernel 1 (some apiC) 5 (fun i => if i = 0 then some 0 else some 1)
      (fun _ => true) =
      some (-errBusy, ⟨2, 0,
        [Ev.regRead (u64 (devC.base + PTDR_CTRL_ADDR_CTRL)),
         Ev.regRead (u64 (devC.base + PTDR_CTRL_ADDR_CTRL))]⟩) :=
  start_busy_behavior devC (fun i => if i = 0 then some 0 else some 1)
    (fun _ => true) ⟨1, 0, []⟩ 1 apiC 1 5
    ⟨1, 0, [Ev.regRead (u64 (devC.base + PTDR_CTRL_ADDR_CTRL))]⟩ 1
    (by decide) (by decide) (by decide) (by decide) rfl (by decide)
    (by decide) (by decide)

theorem dOI_false (dev : Option PtdrDev) (hw : Nat → Option Nat)
    (hdev : checkDevPtr dev = true)
    (hnever : ∀ i, ∃ w, hw i = some w ∧ (w >>> 1) &&& 1 = 0 ∧
      (w >>> 2) &&& 1 = 0) (s : RunSt) :
    (doneOrIdle dev hw s).1 = false := by
  match dev with
  | none => simp [checkDevPtr] at hdev
  | some d =>
    obtain ⟨w, hwv, hd0, _⟩ := hnever s.i
    obtain ⟨w2, hwv2, _, hi02⟩ := hnever (s.i + 1)
    have hdone : ptdr_isdone (some d) hw s =
        ((((w >>> 1) &&& 1 : Nat) : Int), ⟨s.i + 1, s.w,
          s.evs ++ [Ev.regRead (u64 (d.base + PTDR_CTRL_ADDR_CTRL))]⟩) := by
      rw [ptdr_isdone, if_neg (by simp [hdev])]
      dsimp only [st_ctrlRead]
      rw [hwv]
    have hidle : ptdr_isidle (some d) hw ⟨s.i + 1, s.w,
        s.evs ++ [Ev.regRead (u64 (d.base + PTDR_CTRL_ADDR_CTRL))]⟩ =
        ((((w2 >>> 2) &&& 1 : Nat) : Int), ⟨s.i + 1 + 1, s.w,
          (s.evs ++ [Ev.regRead (u64 (d.base + PTDR_CTRL_ADDR_CTRL))]) ++
            [Ev.regRead (u64 (d.base + PTDR_CTRL_ADDR_CTRL))]⟩) := by
      rw [ptdr_isidle, if_neg (by simp [hdev])]
      dsimp only [st_ctrlRead]
      rw [hwv2]
    unfold doneOrIdle
    rw [hdone]
    dsimp only
    rw [hd0, if_neg (by simp), hidle]
    dsimp only
    rw [hi02, if_neg (by simp)]

theorem wdt_never (dev : Option PtdrDev) (hw : Nat → Option Nat)
    (hdev : checkDevPtr dev = true)
    (hnever : ∀ i, ∃ w, hw i = some w ∧ (w >>> 1) &&& 1 = 0 ∧
      (w >>> 2) &&& 1 = 0) :
    ∀ c s, 1 ≤ c → (wait_done_t dev hw c s).1 = true := by
  intro c
  induction c using Nat.strong_induction_on with
  | _ c ih =>
    intro s hc
    match c, hc with
    | 1, _ =>
      rcases hdoi : doneOrIdle dev hw s with ⟨b, sr⟩
      have hb : b = false := by
        have := dOI_false dev hw hdev hnever s
        rw [hdoi] at this
        exact this
      subst hb
      simp [wait_done_t, hdoi]
    | (c + 2), _ =>
      rcases hdoi : doneOrIdle dev hw s with ⟨b, sr⟩
      have hb : b = false := by
        have := dOI_false dev hw hdev hnever s
        rw [hdoi] at this
        exact this
      subst hb
      simp only [wait_done_t, hdoi]
      rw [if_neg (by simp)]
      exact ih (c + 1) (by omega) sr (by omega)

theorem wdt_first_true (dev : Option PtdrDev) (hw : Nat → Option Nat)
    (s s4 : RunSt) (h : doneOrIdle dev hw s = (true, s4)) :
    ∀ t, wait_done_t dev hw (t + 1) s = (false, s4) := by
  intro t
  match t with
  | 0 =>
    simp [wait_done_t, h]
  | t + 1 =>
    show wait_done_t dev hw (t + 2) s = (false, s4)
    simp [wait_done_t, h]

/-- C6 (amended): in the wait-done phase of ptdr_run_kernel, for every
timeout > 0 the code polls is_done() OR is_idle() until true or until the
timeout budget is exhausted, returning -EAGAIN on timeout; but for
timeout = 0 the code instead polls is_ready() (NOT is_done or is_idle)
indefinitely, returning success as soon as ap_start reads 0. -/
theorem wait_done_phase (a : PtdrApi) (fuel timeout : Nat)
    (hw : Nat → Option Nat) (wr : Nat → Bool) (s1 s2 : RunSt)
    (hapi : checkApiPtr (some a) = true)
    (hdev : checkDevPtr a.dev = true)
    (hp1 : run_phase1 a.dev hw fuel timeout = some (false, s1))
    (hstart : ptdr_start a.dev hw wr s1 = (0, s2)) :
    ∀ s3, ptdr_isdone a.dev hw s2 = (0, s3) →
    ((∀ s4, timeout ≠ 0 → doneOrIdle a.dev hw s3 = (true, s4) →
        ptdr_run_kernel fuel (some a) timeout hw wr = some (0, s4)) ∧
     (timeout ≠ 0 →
        (∀ i, ∃ w, hw i = some w ∧ (w >>> 1) &&& 1 = 0 ∧
          (w >>> 2) &&& 1 = 0) →
        ptdr_run_kernel fuel (some a) timeout hw wr =
          some (-errAgain, (wait_done_t a.dev hw timeout s3).2)) ∧
     (∀ r s4, timeout = 0 → 1 ≤ fuel →
        ptdr_isready a.dev hw s3 = (r, s4) → r ≠ 0 →
        ptdr_run_kernel fuel (some a) timeout hw wr = some (0, s4))) := by
  intro s3 hdone
  have hrun : ptdr_run_kernel fuel (some a) timeout hw wr =
      run_phase3 a.dev hw fuel timeout s3 := by
    rw [run_kernel_after_ready a fuel timeout hw wr s1 hapi hp1, hstart]
    dsimp only
    rw [if_neg (by decide : ¬ (0 : Int) < 0), hdone]
    dsimp only
    rw [if_neg (by simp : ¬ (0 : Int) ≠ 0)]
  refine ⟨?_, ?_, ?_⟩
  · intro s4 ht hdoi
    obtain ⟨t, rfl⟩ : ∃ t, timeout = t + 1 := ⟨timeout - 1, by omega⟩
    rw [hrun, run_phase3, if_neg ht, wdt_first_true a.dev hw s3 s4 hdoi t]
    rfl
  · intro ht hnever
    rw [hrun, run_phase3, if_neg ht]
    rcases hwd : wait_done_t a.dev hw timeout s3 with ⟨b, sr⟩
    have hb : b = true := by
      have := wdt_never a.dev hw hdev hnever timeout s3 (by omega)
      rw [hwd] at this
      exact this
    subst hb
    rfl
  · intro r s4 ht hf hrdy hr
    subst ht
    obtain ⟨fu, rfl⟩ : ∃ fu, fuel = fu + 1 := ⟨fuel - 1, by omega⟩
    rw [hrun, run_phase3, if_pos rfl]
    simp only [wait_ready0, hrdy]
    rw [if_neg hr]

/-- C6 counterexample: on a hardware trace whose control register always
reads 0, is_done() and is_idle() are never observed true, yet
ptdr_run_kernel with timeout 0 returns success immediately (its
timeout-0 wait-done loop polls is_ready instead, which reads true): the
wait-done phase does not poll is_done() OR is_idle() when the timeout is
0. -/
theorem wait_done_poll_cex :
    (doneOrIdle (some devC) (fun _ => some 0) ⟨0, 0, []⟩).1 = false ∧
    ptdr_run_kernel 3 (some apiC) 0 (fun _ => some 0) (fun _ => true) =
      some (0, ⟨4, 1, [Ev.regRead 0x400000000, Ev.regRead 0x400000000,
        Ev.regWrite 0x400000000 1, Ev.regRead 0x400000000,
        Ev.regRead 0x400000000]⟩) := by
  constructor <;> decide

/-- C6 witness: the amended theorem applied to a concrete never-done run
with timeout 2, yielding the timeout error -EAGAIN. -/
theorem wait_done_phase_witness :
    ptdr_run_kernel 1 (some apiC) 2 (fun _ => some 0) (fun _ => true) =
      some (-errAgain, (wait_done_t apiC.dev (fun _ => some 0) 2
        ⟨3, 1, [Ev.regRead (u64 (devC.base + PTDR_CTRL_ADDR_CTRL)),
          Ev.regRead (u64 (devC.base + PTDR_CTRL_ADDR_CTRL)),
          Ev.regWrite (u64 (devC.base + PTDR_CTRL_ADDR_CTRL)) 1,
          Ev.regRead (u64 (devC.base + PTDR_CTRL_ADDR_CTRL))]⟩).2) :=
  ((wait_done_phase apiC 1 2 (fun _ => some 0) (fun _ => true)
    ⟨1, 0, [Ev.regRead (u64 (devC.base + PTDR_CTRL_ADDR_CTRL))]⟩
    ⟨2, 1, [Ev.regRead (u64 (devC.base + PTDR_CTRL_ADDR_CTRL)),
      Ev.regRead (u64 (devC.base + PTDR_CTRL_ADDR_CTRL)),
      Ev.regWrite (u64 (devC.base + PTDR_CTRL_ADDR_CTRL)) 1]⟩
    (by decide) (by decide) (by decide) (by decide)
    ⟨3, 1, [Ev.regRead (u64 (devC.base + PTDR_CTRL_ADDR_CTRL)),
      Ev.regRead (u64 (devC.base + PTDR_CTRL_ADDR_CTRL)),
      Ev.regWrite (u64 (devC.base + PTDR_CTRL_ADDR_CTRL)) 1,
      Ev.regRead (u64 (devC.base + PTDR_CTRL_ADDR_CTRL))]⟩
    (by decide)).2.1 (by decide)
    (fun _ => ⟨0, rfl, (by decide), (by decide)⟩))

/-- C7: in ptdr_run_kernel, when the is_done() read immediately after a
successful start() observes ap_done set, ptdr_continue is invoked exactly
once before the wait-done phase: its step appends exactly one ap_continue
acknowledgement write, and any completed run carries exactly one such
write in its whole trace; when ap_done is not observed, no ap_continue
write appears in the whole run. -/
theorem continue_once_after_done (a : PtdrApi) (fuel timeout : Nat)
    (hw : Nat → Option Nat) (wr : Nat → Bool) (s1 s2 s3 : RunSt) (v : Nat)
    (hapi : checkApiPtr (some a) = true)
    (hdev : checkDevPtr a.dev = true)
    (hp1 : run_phase1 a.dev hw fuel timeout = some (false, s1))
    (hstart : ptdr_start a.dev hw wr s1 = (0, s2))
    (hdone : ptdr_isdone a.dev hw s2 = ((((v >>> 1) &&& 1 : Nat) : Int), s3)) :
    ((v >>> 1) &&& 1 = 1 → ∀ v2, hw s3.i = some v2 →
      (contCount (ptdr_continue a.dev hw wr s3).2.evs = contCount s3.evs + 1 ∧
       ∀ res sf, ptdr_run_kernel fuel (some a) timeout hw wr = some (res, sf) →
         contCount sf.evs = 1)) ∧
    ((v >>> 1) &&& 1 = 0 →
      ∀ res sf, ptdr_run_kernel fuel (some a) timeout hw wr = some (res, sf) →
        contCount sf.evs = 0) := by
  have hc1 : contCount s1.evs = 0 :=
    contCount_phase1 a.dev hw fuel timeout false s1 hp1
  have hc2 : contCount s2.evs = 0 := by
    have := contCount_start a.dev hw wr s1
    rw [hstart] at this
    exact this.trans hc1
  have hc3 : contCount s3.evs = 0 := by
    have := contCount_isdone a.dev hw s2
    rw [hdone] at this
    exact this.trans hc2
  have hrunEq := run_kernel_after_ready a fuel timeout hw wr s1 hapi hp1
  rw [hstart] at hrunEq
  dsimp only at hrunEq
  rw [if_neg (by decide : ¬ (0 : Int) < 0), hdone] at hrunEq
  dsimp only at hrunEq
  constructor
  · intro hbit v2 hv2
    have hcc := contCount_continue a.dev hw wr s3 v2 hdev hv2
    refine ⟨hcc, ?_⟩
    intro res sf hrun
    rw [hbit] at hrunEq
    rw [if_pos (by simp : ((1 : Nat) : Int) ≠ 0)] at hrunEq
    rcases hcont : ptdr_continue a.dev hw wr s3 with ⟨c, s4⟩
    rw [hcont] at hrunEq
    dsimp only at hrunEq
    have hc4 : contCount s4.evs = 1 := by
      rw [hcont] at hcc
      rw [hc3] at hcc
      exact hcc
    by_cases hcneg : c < 0
    · rw [if_pos hcneg] at hrunEq
      rw [hrunEq] at hrun
      simp only [Option.some.injEq, Prod.mk.injEq] at hrun
      rw [← hrun.2]
      exact hc4
    · rw [if_neg hcneg] at hrunEq
      rw [hrunEq] at hrun
      exact (contCount_phase3 a.dev hw fuel timeout s4 res sf hrun).trans hc4
  · intro hbit res sf hrun
    rw [hbit] at hrunEq
    rw [if_neg (by simp : ¬ ((0 : Nat) : Int) ≠ 0)] at hrunEq
    rw [hrunEq] at hrun
    exact (contCount_phase3 a.dev hw fuel timeout s3 res sf hrun).trans hc3

/-- C7 witness: a concrete sticky-done run (control register reads 2
after the start) in which the completed run carries exactly one
ap_continue write. -/
theorem continue_once_after_done_witness :
    contCount (ptdr_continue apiC.dev
      (fun i => if i = 0 then some 0 else if i = 1 then some 0 else some 2)
      (fun _ => true)
      ⟨3, 1, [Ev.regRead (u64 (devC.base + PTDR_CTRL_ADDR_CTRL)),
        Ev.regRead (u64 (devC.base + PTDR_CTRL_ADDR_CTRL)),
        Ev.regWrite (u64 (devC.base + PTDR_CTRL_ADDR_CTRL)) 1,
        Ev.regRead (u64 (devC.base + PTDR_CTRL_ADDR_CTRL))]⟩).2.evs =
      contCount [Ev.regRead (u64 (devC.base + PTDR_CTRL_ADDR_CTRL)),
        Ev.regRead (u64 (devC.base + PTDR_CTRL_ADDR_CTRL)),
        Ev.regWrite (u64 (devC.base + PTDR_CTRL_ADDR_CTRL)) 1,
        Ev.regRead (u64 (devC.base + PTDR_CTRL_ADDR_CTRL))] + 1 :=
  ((continue_once_after_done apiC 1 5
    (fun i => if i = 0 then some 0 else if i = 1 then some 0 else some 2)
    (fun _ => true)
    ⟨1, 0, [Ev.regRead (u64 (devC.base + PTDR_CTRL_ADDR_CTRL))]⟩
    ⟨2, 1, [Ev.regRead (u64 (devC.base + PTDR_CTRL_ADDR_CTRL)),
      Ev.regRead (u64 (devC.base + PTDR_CTRL_ADDR_CTRL)),
      Ev.regWrite (u64 (devC.base + PTDR_CTRL_ADDR_CTRL)) 1]⟩
    ⟨3, 1, [Ev.regRead (u64 (devC.base + PTDR_CTRL_ADDR_CTRL)),
      Ev.regRead (u64 (devC.base + PTDR_CTRL_ADDR_CTRL)),
      Ev.regWrite (u64 (devC.base + PTDR_CTRL_ADDR_CTRL)) 1,
      Ev.regRead (u64 (devC.base + PTDR_CTRL_ADDR_CTRL))]⟩ 2
    (by decide) (by decide) (by decide) (by decide) (by decide)).1
    (by decide) 2 (by decide)).1

/-- C10 witness: on the concrete handle apiC, an offset far past the
window is rejected with -EFAULT. -/
theorem mem_rw_window_checks_witness :
    mem_write (some apiC) (fun _ _ => 0) 4 0x300000000 = (-errFault, []) :=
  ((mem_rw_window_checks apiC (fun _ _ => 0) (fun _ _ => 0) 4 0x300000000
    (by decide) (by decide)).1 (by right; decide)).1

end QdmaDrivers
